import Mathlib

/-!
# android_native_app_glue.c : command pipe, command hooks and input buffers

A shallow embedding of `game-activity/native_app_glue/android_native_app_glue.c`.

* `android_app` holds the fields of `struct android_app` that the C file reads or writes.
* `Sys` adds what lives outside the struct: the command pipe (`msgread` / `msgwrite`) and
  a ghost log of the observable actions (mutex operations, stores, broadcasts, calls).
* The header `android_native_app_glue.h` is not part of the source tree, so the `APP_CMD_*`
  values and the two `NATIVE_APP_GLUE_MAX_NUM_*` capacities are parameters (`AppCmd`).
* A function that blocks in a `pthread_cond_wait` loop takes the behaviour of the app thread
  during one wait (`other`) and a bound on the number of waits (`fuel`).
* The pipe is the blocking pipe of `pipe(msgpipe)`: a `read` on the empty working pipe does
  not return, so `android_app_read_cmd` and `process_cmd` have a blocked outcome too.
* `android_app_entry` and the thread start-up of `android_app_create` are outside the model;
  of `android_app_create` only the zero fill of the struct is used (`android_app.zero`).
* `int8_t`, `int` and the event counts are integers without wrap-around: command values are
  `int8_t` constants and the counts never exceed the array capacities.
-/

namespace NativeAppGlue

/-! ## Data model -/

/-- A C pointer, seen as an address; `NULL` is address zero. -/
abbrev Ptr := Nat

/-- The null pointer. -/
abbrev NULL : Ptr := 0

/-- The constants of `android_native_app_glue.h` used by the C file. The header is absent from
the source tree, so their values are parameters of the development. -/
structure AppCmd where
  UNUSED_APP_CMD_INPUT_CHANGED : Int
  APP_CMD_INIT_WINDOW : Int
  APP_CMD_TERM_WINDOW : Int
  APP_CMD_GAINED_FOCUS : Int
  APP_CMD_LOST_FOCUS : Int
  APP_CMD_CONFIG_CHANGED : Int
  APP_CMD_LOW_MEMORY : Int
  APP_CMD_START : Int
  APP_CMD_RESUME : Int
  APP_CMD_SAVE_STATE : Int
  APP_CMD_PAUSE : Int
  APP_CMD_STOP : Int
  APP_CMD_DESTROY : Int
  NATIVE_APP_GLUE_MAX_NUM_MOTION_EVENTS : Nat
  NATIVE_APP_GLUE_MAX_NUM_KEY_EVENTS : Nat

/-- The case labels of the `switch` in `android_app_pre_exec_cmd`, in source order. -/
def AppCmd.preLabels (K : AppCmd) : List Int :=
  [K.UNUSED_APP_CMD_INPUT_CHANGED, K.APP_CMD_INIT_WINDOW, K.APP_CMD_TERM_WINDOW,
   K.APP_CMD_RESUME, K.APP_CMD_START, K.APP_CMD_PAUSE, K.APP_CMD_STOP,
   K.APP_CMD_CONFIG_CHANGED, K.APP_CMD_DESTROY]

/-- The case labels of the `switch` in `android_app_post_exec_cmd`, in source order. -/
def AppCmd.postLabels (K : AppCmd) : List Int :=
  [K.APP_CMD_TERM_WINDOW, K.APP_CMD_SAVE_STATE, K.APP_CMD_RESUME]

/-- The values the Android NDK header gives to the constants (an enumeration counted from 0,
16 motion events, 4 key events). Used only to instantiate the general theorems. -/
def ndk : AppCmd where
  UNUSED_APP_CMD_INPUT_CHANGED := 0
  APP_CMD_INIT_WINDOW := 1
  APP_CMD_TERM_WINDOW := 2
  APP_CMD_GAINED_FOCUS := 6
  APP_CMD_LOST_FOCUS := 7
  APP_CMD_CONFIG_CHANGED := 8
  APP_CMD_LOW_MEMORY := 9
  APP_CMD_START := 10
  APP_CMD_RESUME := 11
  APP_CMD_SAVE_STATE := 12
  APP_CMD_PAUSE := 13
  APP_CMD_STOP := 14
  APP_CMD_DESTROY := 15
  NATIVE_APP_GLUE_MAX_NUM_MOTION_EVENTS := 16
  NATIVE_APP_GLUE_MAX_NUM_KEY_EVENTS := 4

/-- The fields of `struct android_app` that the C file touches. `ME` and `KE` stand for
`GameActivityMotionEvent` and `GameActivityKeyEvent`. An array field is a map from index to
element; its declared capacity is the matching `NATIVE_APP_GLUE_MAX_NUM_*` constant. -/
structure android_app (ME KE : Type) where
  config : Ptr
  savedState : Ptr
  savedStateSize : Nat
  window : Ptr
  pendingWindow : Ptr
  activityState : Int
  destroyRequested : Int
  motionEvents : Nat → ME
  motionEventsCount : Nat
  keyDownEvents : Nat → KE
  keyDownEventsCount : Nat
  keyUpEvents : Nat → KE
  keyUpEventsCount : Nat
  textInputState : Int
  running : Int
  stateSaved : Int
  destroyed : Int

/-- Names of the scalar fields of `struct android_app`, for the action log. -/
inductive Field
  | savedState | savedStateSize | window | pendingWindow | activityState
  | destroyRequested | motionEventsCount | keyDownEventsCount | keyUpEventsCount
  | textInputState | running | stateSaved | destroyed
deriving DecidableEq

/-- Names of the array fields of `struct android_app`. -/
inductive Arr
  | motionEvents | keyDownEvents | keyUpEvents
deriving DecidableEq

/-- One observable action of the C code, recorded in program order. -/
inductive Act
  /-- Call of `pthread_mutex_lock(&android_app->mutex)`. -/
  | lock
  /-- Call of `pthread_mutex_unlock(&android_app->mutex)`. -/
  | unlock
  /-- Call of `pthread_cond_broadcast(&android_app->cond)`. -/
  | broadcast
  /-- Call of `pthread_cond_wait(&android_app->cond, &android_app->mutex)`. -/
  | wait
  /-- Assignment to a scalar field of `struct android_app`. -/
  | store (f : Field)
  /-- A `memcpy` into element `i` of an array field of `struct android_app`. -/
  | storeAt (a : Arr) (i : Nat)
  /-- Call of `free` on a saved-state buffer. -/
  | free (p : Ptr)
  /-- A `read` on `msgread` that delivered the byte `c`. -/
  | pipeRead (c : Int)
  /-- A `write` on `msgwrite` that accepted the byte `c`. -/
  | pipeWrite (c : Int)
  /-- A `LOGE` line (failed `read` or `write`). -/
  | loge
  /-- Entry into `android_app_pre_exec_cmd(app, c)`. -/
  | pre_exec (c : Int)
  /-- The call `app->onAppCmd(app, c)`. -/
  | onAppCmd (c : Int)
  /-- Entry into `android_app_post_exec_cmd(app, c)`. -/
  | post_exec (c : Int)
  /-- The call `recallback(savedState, savedStateSize, context)`. -/
  | recallback (p : Ptr) (size : Nat)
  /-- Call of `AConfiguration_fromAssetManager` on `android_app->config`. -/
  | config_fromAssetManager
  /-- Call of `AConfiguration_delete(android_app->config)`. -/
  | config_delete
deriving DecidableEq

/-- The command pipe made by `pipe(msgpipe)`: the bytes written and not yet read, oldest first,
and whether the descriptors have stopped transferring data (closed or in error). -/
structure Pipe where
  bytes : List Int
  broken : Bool
deriving DecidableEq

/-- What a call `read(msgread, &cmd, sizeof(cmd))` comes to. -/
inductive ReadResult where
  /-- The call returns `sizeof(cmd)`: it delivers the oldest byte `c` and leaves `rest`. -/
  | delivered (c : Int) (rest : Pipe)
  /-- The call returns something else than `sizeof(cmd)` (0 or an error). -/
  | failed
  /-- The call does not return: the pipe is in working order and empty, and the descriptor
  made by `pipe(msgpipe)` is a blocking one. -/
  | blocks
deriving DecidableEq

/-- The call `read(msgread, &cmd, sizeof(cmd))`. A pipe that no longer transfers data makes
the call fail; a working pipe delivers its oldest byte, and blocks the caller when empty. -/
def Pipe.read (p : Pipe) : ReadResult :=
  if p.broken then ReadResult.failed
  else
    match p.bytes with
    | [] => ReadResult.blocks
    | c :: rest => ReadResult.delivered c { p with bytes := rest }

/-- The call `write(msgwrite, &cmd, sizeof(cmd))`: `some` of the new pipe when it returns
`sizeof(cmd)`, `none` otherwise. The pipe is taken to have room for the byte (its capacity is
far above the few command bytes in flight), so a write on a working pipe is accepted. -/
def Pipe.write (p : Pipe) (c : Int) : Option Pipe :=
  if p.broken then none else some { p with bytes := p.bytes ++ [c] }

/-- The whole state the C file acts on: the struct, the pipe, and the action log. -/
structure Sys (ME KE : Type) where
  app : android_app ME KE
  pipe : Pipe
  trace : List Act

/-- The type of `android_app->onAppCmd`: `none` is a NULL function pointer; a callback is
a transformer of the struct fields that receives the command. -/
abbrev OnAppCmd (ME KE : Type) := Option (android_app ME KE → Int → android_app ME KE)

section Code

variable {ME KE : Type}

/-- Append one action to the log. -/
def emit (a : Act) (s : Sys ME KE) : Sys ME KE :=
  { s with trace := s.trace ++ [a] }

/-- Assignment to a scalar field: update the struct and log the store. -/
def store (f : Field) (upd : android_app ME KE → android_app ME KE) (s : Sys ME KE) :
    Sys ME KE :=
  { s with app := upd s.app, trace := s.trace ++ [Act.store f] }

/-- Model of `pthread_mutex_lock(&android_app->mutex)`. -/
def pthread_mutex_lock (s : Sys ME KE) : Sys ME KE := emit Act.lock s

/-- Model of `pthread_mutex_unlock(&android_app->mutex)`. -/
def pthread_mutex_unlock (s : Sys ME KE) : Sys ME KE := emit Act.unlock s

/-- Model of `pthread_cond_broadcast(&android_app->cond)`. -/
def pthread_cond_broadcast (s : Sys ME KE) : Sys ME KE := emit Act.broadcast s

/-! ## App-thread code -/

/-- Source lines 41-49. -/
def free_saved_state (s : Sys ME KE) : Sys ME KE :=
  let s := pthread_mutex_lock s
  let s :=
    if s.app.savedState ≠ NULL then
      let s := emit (Act.free s.app.savedState) s
      let s := store Field.savedState (fun a => { a with savedState := NULL }) s
      store Field.savedStateSize (fun a => { a with savedStateSize := 0 }) s
    else s
  pthread_mutex_unlock s

/-- What a call of `android_app_read_cmd` comes to: it returned the `int8_t` value `cmd`, or
it is still inside `read`. -/
inductive ReadCmd (ME KE : Type) where
  | returned (cmd : Int) (s : Sys ME KE)
  | blocked (s : Sys ME KE)

/-- The state a `ReadCmd` carries. -/
def ReadCmd.state : ReadCmd ME KE → Sys ME KE
  | ReadCmd.returned _ s => s
  | ReadCmd.blocked s => s

/-- Source lines 51-64. -/
def android_app_read_cmd (K : AppCmd) (s : Sys ME KE) : ReadCmd ME KE :=
  match s.pipe.read with
  | ReadResult.delivered cmd p =>
    let s := emit (Act.pipeRead cmd) { s with pipe := p }
    let s := if cmd = K.APP_CMD_SAVE_STATE then free_saved_state s else s
    ReadCmd.returned cmd s
  | ReadResult.failed => ReadCmd.returned (-1) (emit Act.loge s)
  | ReadResult.blocks => ReadCmd.blocked s

/-- Source lines 91-135. `print_cur_config` and `LOGV` only print. -/
def android_app_pre_exec_cmd (K : AppCmd) (s : Sys ME KE) (cmd : Int) : Sys ME KE :=
  let s := emit (Act.pre_exec cmd) s
  if cmd = K.UNUSED_APP_CMD_INPUT_CHANGED then s
  else if cmd = K.APP_CMD_INIT_WINDOW then
    let s := pthread_mutex_lock s
    let s := store Field.window (fun a => { a with window := a.pendingWindow }) s
    let s := pthread_cond_broadcast s
    pthread_mutex_unlock s
  else if cmd = K.APP_CMD_TERM_WINDOW then
    pthread_cond_broadcast s
  else if cmd = K.APP_CMD_RESUME ∨ cmd = K.APP_CMD_START ∨ cmd = K.APP_CMD_PAUSE
      ∨ cmd = K.APP_CMD_STOP then
    let s := pthread_mutex_lock s
    let s := store Field.activityState (fun a => { a with activityState := cmd }) s
    let s := pthread_cond_broadcast s
    pthread_mutex_unlock s
  else if cmd = K.APP_CMD_CONFIG_CHANGED then
    emit Act.config_fromAssetManager s
  else if cmd = K.APP_CMD_DESTROY then
    store Field.destroyRequested (fun a => { a with destroyRequested := 1 }) s
  else s

/-- Source lines 137-159. -/
def android_app_post_exec_cmd (K : AppCmd) (s : Sys ME KE) (cmd : Int) : Sys ME KE :=
  let s := emit (Act.post_exec cmd) s
  if cmd = K.APP_CMD_TERM_WINDOW then
    let s := pthread_mutex_lock s
    let s := store Field.window (fun a => { a with window := NULL }) s
    let s := pthread_cond_broadcast s
    pthread_mutex_unlock s
  else if cmd = K.APP_CMD_SAVE_STATE then
    let s := pthread_mutex_lock s
    let s := store Field.stateSaved (fun a => { a with stateSaved := 1 }) s
    let s := pthread_cond_broadcast s
    pthread_mutex_unlock s
  else if cmd = K.APP_CMD_RESUME then
    free_saved_state s
  else s

/-- Source lines 163-173. -/
def android_app_destroy (s : Sys ME KE) : Sys ME KE :=
  let s := free_saved_state s
  let s := pthread_mutex_lock s
  let s := emit Act.config_delete s
  let s := store Field.destroyed (fun a => { a with destroyed := 1 }) s
  let s := pthread_cond_broadcast s
  pthread_mutex_unlock s

/-- The statement `if (app->onAppCmd != NULL) app->onAppCmd(app, cmd);` of `process_cmd`. -/
def call_onAppCmd (onAppCmd : OnAppCmd ME KE) (s : Sys ME KE) (cmd : Int) : Sys ME KE :=
  match onAppCmd with
  | some f => { emit (Act.onAppCmd cmd) s with app := f s.app cmd }
  | none => s

/-- What a call of a function that may block comes to: it returned, or it does not get past a
blocking call (a `read` on the empty pipe; a `pthread_cond_wait` after the allotted number of
waits). -/
inductive Outcome (ME KE : Type) where
  | returned (s : Sys ME KE)
  | blocked (s : Sys ME KE)

/-- The state an outcome carries. -/
def Outcome.state : Outcome ME KE → Sys ME KE
  | Outcome.returned s => s
  | Outcome.blocked s => s

/-- Continue with `k` after a call that returned; a blocked call stays blocked. -/
def Outcome.andThen (o : Outcome ME KE) (k : Sys ME KE → Sys ME KE) : Outcome ME KE :=
  match o with
  | Outcome.returned s => Outcome.returned (k s)
  | Outcome.blocked s => Outcome.blocked s

/-- Source lines 175-181. -/
def process_cmd (K : AppCmd) (onAppCmd : OnAppCmd ME KE) (s : Sys ME KE) : Outcome ME KE :=
  match android_app_read_cmd K s with
  | ReadCmd.returned cmd s =>
    let s := android_app_pre_exec_cmd K s cmd
    let s := call_onAppCmd onAppCmd s cmd
    Outcome.returned (android_app_post_exec_cmd K s cmd)
  | ReadCmd.blocked s => Outcome.blocked s

/-! ## Main-thread code -/

/-- The loop `while (cond) pthread_cond_wait(&cond, &mutex);` run by the main thread with the
mutex held. During each wait the mutex is released and the app thread runs `other`; when that
returns the condition is tested again, and when the app thread itself blocks nobody is left to
signal and the main thread stays in its wait. `fuel` bounds the number of waits. -/
def cond_wait_loop (cond : android_app ME KE → Bool) (other : Sys ME KE → Outcome ME KE) :
    Nat → Sys ME KE → Outcome ME KE
  | 0, s => if cond s.app then Outcome.blocked s else Outcome.returned s
  | fuel + 1, s =>
    if cond s.app then
      match other (emit Act.wait s) with
      | Outcome.returned t => cond_wait_loop cond other fuel t
      | Outcome.blocked t => Outcome.blocked t
    else Outcome.returned s

/-- Source lines 263-267. -/
def android_app_write_cmd (s : Sys ME KE) (cmd : Int) : Sys ME KE :=
  match s.pipe.write cmd with
  | some p => emit (Act.pipeWrite cmd) { s with pipe := p }
  | none => emit Act.loge s

/-- Source lines 269-284. -/
def android_app_set_window (K : AppCmd) (other : Sys ME KE → Outcome ME KE) (fuel : Nat)
    (s : Sys ME KE) (window : Ptr) : Outcome ME KE :=
  let s := pthread_mutex_lock s
  let s := if s.app.pendingWindow ≠ NULL then android_app_write_cmd s K.APP_CMD_TERM_WINDOW else s
  let s := store Field.pendingWindow (fun a => { a with pendingWindow := window }) s
  let s := if window ≠ NULL then android_app_write_cmd s K.APP_CMD_INIT_WINDOW else s
  (cond_wait_loop (fun a => a.window != a.pendingWindow) other fuel s).andThen
    pthread_mutex_unlock

/-- Source lines 286-294. -/
def android_app_set_activity_state (other : Sys ME KE → Outcome ME KE) (fuel : Nat)
    (s : Sys ME KE) (cmd : Int) : Outcome ME KE :=
  let s := pthread_mutex_lock s
  let s := android_app_write_cmd s cmd
  (cond_wait_loop (fun a => a.activityState != cmd) other fuel s).andThen
    pthread_mutex_unlock

/-- Source lines 296-309. After the wait both pipe descriptors are closed; the destruction of
the mutex and condition variable and the `free` of the struct end the life of the state. -/
def android_app_free (K : AppCmd) (other : Sys ME KE → Outcome ME KE) (fuel : Nat)
    (s : Sys ME KE) : Outcome ME KE :=
  let s := pthread_mutex_lock s
  let s := android_app_write_cmd s K.APP_CMD_DESTROY
  (cond_wait_loop (fun a => a.destroyed == 0) other fuel s).andThen fun s =>
    let s := pthread_mutex_unlock s
    { s with pipe := { s.pipe with broken := true } }

/-- Source lines 311-314. -/
def onDestroy (K : AppCmd) (other : Sys ME KE → Outcome ME KE) (fuel : Nat) (s : Sys ME KE) :
    Outcome ME KE :=
  android_app_free K other fuel s

/-- Source lines 316-320. -/
def onStart (K : AppCmd) (other : Sys ME KE → Outcome ME KE) (fuel : Nat) (s : Sys ME KE) :
    Outcome ME KE :=
  android_app_set_activity_state other fuel s K.APP_CMD_START

/-- Source lines 322-326. -/
def onResume (K : AppCmd) (other : Sys ME KE → Outcome ME KE) (fuel : Nat) (s : Sys ME KE) :
    Outcome ME KE :=
  android_app_set_activity_state other fuel s K.APP_CMD_RESUME

/-- Source lines 328-353. -/
def onSaveInstanceState (K : AppCmd) (other : Sys ME KE → Outcome ME KE) (fuel : Nat)
    (s : Sys ME KE) : Outcome ME KE :=
  let s := pthread_mutex_lock s
  let s := store Field.stateSaved (fun a => { a with stateSaved := 0 }) s
  let s := android_app_write_cmd s K.APP_CMD_SAVE_STATE
  (cond_wait_loop (fun a => a.stateSaved == 0) other fuel s).andThen fun s =>
    let s :=
      if s.app.savedState ≠ NULL then
        let s := emit (Act.recallback s.app.savedState s.app.savedStateSize) s
        let s := emit (Act.free s.app.savedState) s
        let s := store Field.savedState (fun a => { a with savedState := NULL }) s
        store Field.savedStateSize (fun a => { a with savedStateSize := 0 }) s
      else s
    pthread_mutex_unlock s

/-- Source lines 355-359. -/
def onPause (K : AppCmd) (other : Sys ME KE → Outcome ME KE) (fuel : Nat) (s : Sys ME KE) :
    Outcome ME KE :=
  android_app_set_activity_state other fuel s K.APP_CMD_PAUSE

/-- Source lines 361-365. -/
def onStop (K : AppCmd) (other : Sys ME KE → Outcome ME KE) (fuel : Nat) (s : Sys ME KE) :
    Outcome ME KE :=
  android_app_set_activity_state other fuel s K.APP_CMD_STOP

/-- Source lines 367-371. -/
def onConfigurationChanged (K : AppCmd) (s : Sys ME KE) : Sys ME KE :=
  android_app_write_cmd s K.APP_CMD_CONFIG_CHANGED

/-- Source lines 373-377. The `level` argument is only printed. -/
def onTrimMemory (K : AppCmd) (s : Sys ME KE) (_level : Int) : Sys ME KE :=
  android_app_write_cmd s K.APP_CMD_LOW_MEMORY

/-- Source lines 379-383. -/
def onWindowFocusChanged (K : AppCmd) (s : Sys ME KE) (focused : Bool) : Sys ME KE :=
  android_app_write_cmd s (if focused then K.APP_CMD_GAINED_FOCUS else K.APP_CMD_LOST_FOCUS)

/-- Source lines 385-389. -/
def onNativeWindowCreated (K : AppCmd) (other : Sys ME KE → Outcome ME KE) (fuel : Nat)
    (s : Sys ME KE) (window : Ptr) : Outcome ME KE :=
  android_app_set_window K other fuel s window

/-- Source lines 391-395. The `window` argument is only printed. -/
def onNativeWindowDestroyed (K : AppCmd) (other : Sys ME KE → Outcome ME KE) (fuel : Nat)
    (s : Sys ME KE) (_window : Ptr) : Outcome ME KE :=
  android_app_set_window K other fuel s NULL

/-- Source lines 397-409. `new_ix` is an `int`; the guard keeps the count below the capacity,
so the conversion keeps the value. The store is logged with its index. -/
def onTouchEvent (K : AppCmd) (s : Sys ME KE) (event : ME) : Sys ME KE :=
  let s := pthread_mutex_lock s
  let s :=
    if s.app.motionEventsCount < K.NATIVE_APP_GLUE_MAX_NUM_MOTION_EVENTS then
      let new_ix := s.app.motionEventsCount
      let s : Sys ME KE :=
        { s with
          app := { s.app with motionEvents := Function.update s.app.motionEvents new_ix event }
          trace := s.trace ++ [Act.storeAt Arr.motionEvents new_ix] }
      store Field.motionEventsCount
        (fun a => { a with motionEventsCount := a.motionEventsCount + 1 }) s
    else s
  pthread_mutex_unlock s

/-- Source lines 411-419. -/
def android_app_clear_motion_events (s : Sys ME KE) : Sys ME KE :=
  let s := pthread_mutex_lock s
  let s :=
    if s.app.motionEventsCount ≠ 0 then
      store Field.motionEventsCount (fun a => { a with motionEventsCount := 0 }) s
    else s
  pthread_mutex_unlock s

/-- Source lines 421-433. -/
def onKeyDown (K : AppCmd) (s : Sys ME KE) (event : KE) : Sys ME KE :=
  let s := pthread_mutex_lock s
  let s :=
    if s.app.keyDownEventsCount < K.NATIVE_APP_GLUE_MAX_NUM_KEY_EVENTS then
      let new_ix := s.app.keyDownEventsCount
      let s : Sys ME KE :=
        { s with
          app := { s.app with keyDownEvents := Function.update s.app.keyDownEvents new_ix event }
          trace := s.trace ++ [Act.storeAt Arr.keyDownEvents new_ix] }
      store Field.keyDownEventsCount
        (fun a => { a with keyDownEventsCount := a.keyDownEventsCount + 1 }) s
    else s
  pthread_mutex_unlock s

/-- Source lines 435-443. -/
def android_app_clear_key_down_events (s : Sys ME KE) : Sys ME KE :=
  let s := pthread_mutex_lock s
  let s :=
    if s.app.keyDownEventsCount ≠ 0 then
      store Field.keyDownEventsCount (fun a => { a with keyDownEventsCount := 0 }) s
    else s
  pthread_mutex_unlock s

/-- Source lines 445-457. -/
def onKeyUp (K : AppCmd) (s : Sys ME KE) (event : KE) : Sys ME KE :=
  let s := pthread_mutex_lock s
  let s :=
    if s.app.keyUpEventsCount < K.NATIVE_APP_GLUE_MAX_NUM_KEY_EVENTS then
      let new_ix := s.app.keyUpEventsCount
      let s : Sys ME KE :=
        { s with
          app := { s.app with keyUpEvents := Function.update s.app.keyUpEvents new_ix event }
          trace := s.trace ++ [Act.storeAt Arr.keyUpEvents new_ix] }
      store Field.keyUpEventsCount
        (fun a => { a with keyUpEventsCount := a.keyUpEventsCount + 1 }) s
    else s
  pthread_mutex_unlock s

/-- Source lines 459-467. -/
def android_app_clear_key_up_events (s : Sys ME KE) : Sys ME KE :=
  let s := pthread_mutex_lock s
  let s :=
    if s.app.keyUpEventsCount ≠ 0 then
      store Field.keyUpEventsCount (fun a => { a with keyUpEventsCount := 0 }) s
    else s
  pthread_mutex_unlock s

/-- Source lines 469-476. The `state` argument is not read. -/
def onTextInputEvent (s : Sys ME KE) : Sys ME KE :=
  let s := pthread_mutex_lock s
  let s := store Field.textInputState (fun a => { a with textInputState := 1 }) s
  pthread_mutex_unlock s

/-- The callback slots of `activity->callbacks` that `GameActivity_onCreate_C` fills, each
with the arguments the host passes when it invokes the slot. -/
inductive GameActivityCallback (ME KE : Type) where
  | onDestroy
  | onStart
  | onResume
  | onSaveInstanceState
  | onPause
  | onStop
  | onTouchEvent (event : ME)
  | onKeyDown (event : KE)
  | onKeyUp (event : KE)
  | onTextInputEvent
  | onConfigurationChanged
  | onTrimMemory (level : Int)
  | onWindowFocusChanged (focused : Bool)
  | onNativeWindowCreated (window : Ptr)
  | onNativeWindowDestroyed (window : Ptr)

/-- Source lines 478-500: the function installed in each slot of `activity->callbacks`,
applied to the arguments of the invocation. -/
def GameActivity_onCreate_C (K : AppCmd) (other : Sys ME KE → Outcome ME KE) (fuel : Nat)
    (slot : GameActivityCallback ME KE) (s : Sys ME KE) : Outcome ME KE :=
  match slot with
  | GameActivityCallback.onDestroy => onDestroy K other fuel s
  | GameActivityCallback.onStart => onStart K other fuel s
  | GameActivityCallback.onResume => onResume K other fuel s
  | GameActivityCallback.onSaveInstanceState => onSaveInstanceState K other fuel s
  | GameActivityCallback.onPause => onPause K other fuel s
  | GameActivityCallback.onStop => onStop K other fuel s
  | GameActivityCallback.onTouchEvent event => Outcome.returned (onTouchEvent K s event)
  | GameActivityCallback.onKeyDown event => Outcome.returned (onKeyDown K s event)
  | GameActivityCallback.onKeyUp event => Outcome.returned (onKeyUp K s event)
  | GameActivityCallback.onTextInputEvent => Outcome.returned (onTextInputEvent s)
  | GameActivityCallback.onConfigurationChanged => Outcome.returned (onConfigurationChanged K s)
  | GameActivityCallback.onTrimMemory level => Outcome.returned (onTrimMemory K s level)
  | GameActivityCallback.onWindowFocusChanged focused =>
    Outcome.returned (onWindowFocusChanged K s focused)
  | GameActivityCallback.onNativeWindowCreated window =>
    onNativeWindowCreated K other fuel s window
  | GameActivityCallback.onNativeWindowDestroyed window =>
    onNativeWindowDestroyed K other fuel s window

/-! ## The input-event operations as a small command language -/

/-- The zero-filled struct that `android_app_create` obtains from `memset`; `zm` and `zk` are
the all-zero motion and key events. -/
def android_app.zero (zm : ME) (zk : KE) : android_app ME KE where
  config := NULL
  savedState := NULL
  savedStateSize := 0
  window := NULL
  pendingWindow := NULL
  activityState := 0
  destroyRequested := 0
  motionEvents := fun _ => zm
  motionEventsCount := 0
  keyDownEvents := fun _ => zk
  keyDownEventsCount := 0
  keyUpEvents := fun _ => zk
  keyUpEventsCount := 0
  textInputState := 0
  running := 0
  stateSaved := 0
  destroyed := 0

/-- The zero-filled struct together with a fresh, empty pipe and an empty log. -/
def Sys.zero (zm : ME) (zk : KE) : Sys ME KE where
  app := android_app.zero zm zk
  pipe := { bytes := [], broken := false }
  trace := []

/-- One call of an input-buffer operation. -/
inductive InputOp (ME KE : Type) where
  | touch (event : ME)
  | keyDown (event : KE)
  | keyUp (event : KE)
  | clearMotion
  | clearKeyDown
  | clearKeyUp

/-- Run one input-buffer operation. -/
def InputOp.run (K : AppCmd) (s : Sys ME KE) : InputOp ME KE → Sys ME KE
  | InputOp.touch event => onTouchEvent K s event
  | InputOp.keyDown event => onKeyDown K s event
  | InputOp.keyUp event => onKeyUp K s event
  | InputOp.clearMotion => android_app_clear_motion_events s
  | InputOp.clearKeyDown => android_app_clear_key_down_events s
  | InputOp.clearKeyUp => android_app_clear_key_up_events s

/-- Run a sequence of input-buffer operations, first to last. -/
def runInput (K : AppCmd) (s : Sys ME KE) (ops : List (InputOp ME KE)) : Sys ME KE :=
  ops.foldl (InputOp.run K) s

/-- The app thread handling `n` commands one after the other. -/
def process_cmds (K : AppCmd) (onAppCmd : OnAppCmd ME KE) : Nat → Sys ME KE → Outcome ME KE
  | 0, s => Outcome.returned s
  | n + 1, s =>
    match process_cmd K onAppCmd s with
    | Outcome.returned t => process_cmds K onAppCmd n t
    | Outcome.blocked t => Outcome.blocked t

/-! ## Observers of the action log -/

/-- The actions logged between state `s` and a later state `t`. -/
def newTrace (s t : Sys ME KE) : List Act := t.trace.drop s.trace.length

end Code

/-- Whether an action is a store to the struct or a condition-variable broadcast. -/
def Act.isSharedAccess : Act → Bool
  | Act.store _ => true
  | Act.storeAt _ _ => true
  | Act.broadcast => true
  | _ => false

/-- The stores and broadcasts of a log that happen while the mutex is not held by the thread
that runs the log; `held` tells whether it holds the mutex at the start. -/
def unguarded : Bool → List Act → List Act
  | _, [] => []
  | held, a :: rest =>
    match a with
    | Act.lock => unguarded true rest
    | Act.unlock => unguarded false rest
    | _ => if a.isSharedAccess && !held then a :: unguarded held rest else unguarded held rest

/-- Whether an action is one of the four steps of `process_cmd`: the pipe read, the entry
into a hook, or the call of `onAppCmd`. -/
def Act.isStep : Act → Bool
  | Act.pipeRead _ => true
  | Act.pre_exec _ => true
  | Act.onAppCmd _ => true
  | Act.post_exec _ => true
  | _ => false

/-- The steps of `process_cmd` recorded in a log, in order. -/
def steps (t : List Act) : List Act := t.filter Act.isStep

/-- The bytes accepted by `write` calls recorded in a log, in order. -/
def pipeWrites : List Act → List Int
  | [] => []
  | Act.pipeWrite c :: rest => c :: pipeWrites rest
  | _ :: rest => pipeWrites rest

/-- The argument pairs of the `recallback` calls recorded in a log, in order. -/
def recallbacks : List Act → List (Ptr × Nat)
  | [] => []
  | Act.recallback p n :: rest => (p, n) :: recallbacks rest
  | _ :: rest => recallbacks rest

/-- The indices of the `memcpy` stores into array `a` recorded in a log, in order. -/
def storesAt (a : Arr) : List Act → List Nat
  | [] => []
  | Act.storeAt b i :: rest => if b = a then i :: storesAt a rest else storesAt a rest
  | _ :: rest => storesAt a rest

/-- The shape shared by the three input handlers, on one buffer in isolation: store `e` at
index `count` and increment `count` when `count < cap`, else do nothing. Used to state the
lemmas about the handlers once. -/
def pushEvent {E : Type} (cap : Nat) (b : (Nat → E) × Nat) (e : E) : (Nat → E) × Nat :=
  if b.2 < cap then (Function.update b.1 b.2 e, b.2 + 1) else b

/-- The three buffers of a state, each as the pair of its array and its count. -/
def motionBuf {ME KE : Type} (s : Sys ME KE) : (Nat → ME) × Nat :=
  (s.app.motionEvents, s.app.motionEventsCount)

/-- The key-down buffer of a state. -/
def keyDownBuf {ME KE : Type} (s : Sys ME KE) : (Nat → KE) × Nat :=
  (s.app.keyDownEvents, s.app.keyDownEventsCount)

/-- The key-up buffer of a state. -/
def keyUpBuf {ME KE : Type} (s : Sys ME KE) : (Nat → KE) × Nat :=
  (s.app.keyUpEvents, s.app.keyUpEventsCount)

/-- The counts are within the capacities and every logged array store is within the capacity
of its array. -/
def BuffersOk {ME KE : Type} (K : AppCmd) (s : Sys ME KE) : Prop :=
  s.app.motionEventsCount ≤ K.NATIVE_APP_GLUE_MAX_NUM_MOTION_EVENTS ∧
  s.app.keyDownEventsCount ≤ K.NATIVE_APP_GLUE_MAX_NUM_KEY_EVENTS ∧
  s.app.keyUpEventsCount ≤ K.NATIVE_APP_GLUE_MAX_NUM_KEY_EVENTS ∧
  (∀ i ∈ storesAt Arr.motionEvents s.trace, i < K.NATIVE_APP_GLUE_MAX_NUM_MOTION_EVENTS) ∧
  (∀ i ∈ storesAt Arr.keyDownEvents s.trace, i < K.NATIVE_APP_GLUE_MAX_NUM_KEY_EVENTS) ∧
  (∀ i ∈ storesAt Arr.keyUpEvents s.trace, i < K.NATIVE_APP_GLUE_MAX_NUM_KEY_EVENTS)

/-- A log fragment that holds no step of `process_cmd`, no pipe write and no `recallback`. -/
def Quiet (l : List Act) : Prop := steps l = [] ∧ pipeWrites l = [] ∧ recallbacks l = []

/-! ## Shared lemmas -/

section Lemmas

variable {ME KE : Type}

@[simp]
theorem emit_app (a : Act) (s : Sys ME KE) : (emit a s).app = s.app := rfl

@[simp]
theorem emit_pipe (a : Act) (s : Sys ME KE) : (emit a s).pipe = s.pipe := rfl

@[simp]
theorem emit_trace (a : Act) (s : Sys ME KE) : (emit a s).trace = s.trace ++ [a] := rfl

@[simp]
theorem store_app (f : Field) (u : android_app ME KE → android_app ME KE)
    (s : Sys ME KE) : (store f u s).app = u s.app := rfl

@[simp]
theorem store_pipe (f : Field) (u : android_app ME KE → android_app ME KE)
    (s : Sys ME KE) : (store f u s).pipe = s.pipe := rfl

@[simp]
theorem store_trace (f : Field) (u : android_app ME KE → android_app ME KE)
    (s : Sys ME KE) : (store f u s).trace = s.trace ++ [Act.store f] := rfl

theorem newTrace_of_append (s t : Sys ME KE) (l : List Act) (h : t.trace = s.trace ++ l) :
    newTrace s t = l := by
  simp [newTrace, h]

theorem steps_append (a b : List Act) : steps (a ++ b) = steps a ++ steps b := by
  simp [steps]

theorem pipeWrites_append (a b : List Act) : pipeWrites (a ++ b) = pipeWrites a ++ pipeWrites b := by
  induction a with
  | nil => rfl
  | cons x a ih => cases x <;> simp [pipeWrites, ih]

theorem recallbacks_append (a b : List Act) :
    recallbacks (a ++ b) = recallbacks a ++ recallbacks b := by
  induction a with
  | nil => rfl
  | cons x a ih => cases x <;> simp [recallbacks, ih]


theorem free_saved_state_trace (s : Sys ME KE) :
    (free_saved_state s).trace = s.trace ++
      (if s.app.savedState ≠ NULL then
        [Act.lock, Act.free s.app.savedState, Act.store Field.savedState,
          Act.store Field.savedStateSize, Act.unlock]
      else [Act.lock, Act.unlock]) := by
  unfold free_saved_state
  by_cases h : s.app.savedState = NULL <;>
    simp [pthread_mutex_lock, pthread_mutex_unlock, h]

theorem free_saved_state_log (s : Sys ME KE) :
    ∃ l, (free_saved_state s).trace = s.trace ++ l ∧ Quiet l := by
  refine ⟨_, free_saved_state_trace s, ?_⟩
  by_cases h : s.app.savedState = NULL <;>
    simp [Quiet, steps, Act.isStep, pipeWrites, recallbacks, h]

theorem pre_exec_log (K : AppCmd) (s : Sys ME KE) (c : Int) :
    ∃ l, (android_app_pre_exec_cmd K s c).trace = s.trace ++ Act.pre_exec c :: l ∧ Quiet l := by
  unfold android_app_pre_exec_cmd
  split_ifs <;>
    exact ⟨_, by simp [pthread_mutex_lock, pthread_mutex_unlock, pthread_cond_broadcast]; rfl,
      by simp [Quiet, steps, Act.isStep, pipeWrites, recallbacks]⟩


theorem post_exec_log (K : AppCmd) (s : Sys ME KE) (c : Int) :
    ∃ l, (android_app_post_exec_cmd K s c).trace = s.trace ++ Act.post_exec c :: l ∧ Quiet l := by
  unfold android_app_post_exec_cmd
  split_ifs
  · exact ⟨_, by simp [pthread_mutex_lock, pthread_mutex_unlock, pthread_cond_broadcast]; rfl,
      by simp [Quiet, steps, Act.isStep, pipeWrites, recallbacks]⟩
  · exact ⟨_, by simp [pthread_mutex_lock, pthread_mutex_unlock, pthread_cond_broadcast]; rfl,
      by simp [Quiet, steps, Act.isStep, pipeWrites, recallbacks]⟩
  · obtain ⟨l, hl, hq⟩ := free_saved_state_log (emit (Act.post_exec c) s)
    exact ⟨l, by simp [hl], hq⟩
  · exact ⟨[], by simp, by simp [Quiet, steps, pipeWrites, recallbacks]⟩

theorem free_saved_state_pipe (s : Sys ME KE) : (free_saved_state s).pipe = s.pipe := by
  unfold free_saved_state
  by_cases h : s.app.savedState = NULL <;> simp [pthread_mutex_lock, pthread_mutex_unlock, h]

theorem read_cmd_of_bytes (K : AppCmd) (s : Sys ME KE) (c : Int) (rest : List Int)
    (hb : s.pipe.broken = false) (hc : s.pipe.bytes = c :: rest) :
    android_app_read_cmd K s = ReadCmd.returned c (android_app_read_cmd K s).state ∧
    (android_app_read_cmd K s).state.pipe = { s.pipe with bytes := rest } ∧
    (android_app_read_cmd K s).state.app =
      (if c = K.APP_CMD_SAVE_STATE ∧ s.app.savedState ≠ NULL then
        { s.app with savedState := NULL, savedStateSize := 0 } else s.app) ∧
    ∃ l, (android_app_read_cmd K s).state.trace = s.trace ++ Act.pipeRead c :: l ∧ Quiet l := by
  have hr : s.pipe.read = ReadResult.delivered c { s.pipe with bytes := rest } := by
    simp [Pipe.read, hb, hc]
  unfold android_app_read_cmd
  rw [hr]
  dsimp only [ReadCmd.state]
  refine ⟨rfl, ?_, ?_, ?_⟩
  · split_ifs <;> simp [free_saved_state_pipe]
  · by_cases h : c = K.APP_CMD_SAVE_STATE <;> by_cases h2 : s.app.savedState = NULL <;>
      simp [h, h2, free_saved_state, pthread_mutex_lock, pthread_mutex_unlock]
  · by_cases h : c = K.APP_CMD_SAVE_STATE
    · obtain ⟨l, hl, hq⟩ := free_saved_state_log
        (emit (Act.pipeRead c) { s with pipe := { s.pipe with bytes := rest } })
      refine ⟨l, ?_, hq⟩
      rw [if_pos h, hl]
      simp
    · exact ⟨[], by simp [h], by simp [Quiet, steps, pipeWrites, recallbacks]⟩

theorem read_cmd_of_failed (K : AppCmd) (s : Sys ME KE)
    (hr : s.pipe.read = ReadResult.failed) :
    android_app_read_cmd K s = ReadCmd.returned (-1) (emit Act.loge s) := by
  unfold android_app_read_cmd
  rw [hr]

theorem read_cmd_of_blocks (K : AppCmd) (s : Sys ME KE)
    (hr : s.pipe.read = ReadResult.blocks) :
    android_app_read_cmd K s = ReadCmd.blocked s := by
  unfold android_app_read_cmd
  rw [hr]

theorem process_cmd_of_returned (K : AppCmd) (onAppCmd : OnAppCmd ME KE) (s r : Sys ME KE)
    (c : Int) (h : android_app_read_cmd K s = ReadCmd.returned c r) :
    process_cmd K onAppCmd s =
      Outcome.returned (android_app_post_exec_cmd K
        (call_onAppCmd onAppCmd (android_app_pre_exec_cmd K r c) c) c) := by
  unfold process_cmd
  rw [h]

theorem process_cmd_of_blocked (K : AppCmd) (onAppCmd : OnAppCmd ME KE) (s r : Sys ME KE)
    (h : android_app_read_cmd K s = ReadCmd.blocked r) :
    process_cmd K onAppCmd s = Outcome.blocked r := by
  unfold process_cmd
  rw [h]

theorem pre_exec_pipe (K : AppCmd) (s : Sys ME KE) (c : Int) :
    (android_app_pre_exec_cmd K s c).pipe = s.pipe := by
  unfold android_app_pre_exec_cmd
  split_ifs <;> simp [pthread_mutex_lock, pthread_mutex_unlock, pthread_cond_broadcast]

theorem post_exec_pipe (K : AppCmd) (s : Sys ME KE) (c : Int) :
    (android_app_post_exec_cmd K s c).pipe = s.pipe := by
  unfold android_app_post_exec_cmd
  split_ifs <;>
    simp [pthread_mutex_lock, pthread_mutex_unlock, pthread_cond_broadcast, free_saved_state_pipe]

theorem call_onAppCmd_pipe (cb : OnAppCmd ME KE) (s : Sys ME KE) (c : Int) :
    (call_onAppCmd cb s c).pipe = s.pipe := by
  cases cb <;> rfl

theorem call_onAppCmd_trace (cb : OnAppCmd ME KE) (s : Sys ME KE) (c : Int) :
    (call_onAppCmd cb s c).trace = s.trace ++ (if cb.isSome then [Act.onAppCmd c] else []) := by
  cases cb <;> simp [call_onAppCmd]

theorem call_onAppCmd_app (cb : OnAppCmd ME KE) (s : Sys ME KE) (c : Int) :
    (call_onAppCmd cb s c).app = (match cb with | some f => f s.app c | none => s.app) := by
  cases cb <;> rfl

/-- C3: when the pipe delivers the command byte `c`, `android_app_read_cmd` returns `c`, and
`process_cmd` returns, takes exactly that one byte off the pipe, and performs, in this order
and each exactly once, the pipe read, `android_app_pre_exec_cmd(c)`, the call `onAppCmd(c)`
(present when `onAppCmd` is non-NULL, absent when it is NULL) and
`android_app_post_exec_cmd(c)`; its result is the post hook applied to the callback applied to
the pre hook, all with the same `c`. -/
theorem C3_process_cmd_order (K : AppCmd) (onAppCmd : OnAppCmd ME KE) (s : Sys ME KE)
    (c : Int) (rest : List Int) (hb : s.pipe.broken = false) (hc : s.pipe.bytes = c :: rest) :
    android_app_read_cmd K s = ReadCmd.returned c (android_app_read_cmd K s).state ∧
    (process_cmd K onAppCmd s).state.pipe.bytes = rest ∧
    steps (newTrace s (process_cmd K onAppCmd s).state) =
      [Act.pipeRead c, Act.pre_exec c] ++ (if onAppCmd.isSome then [Act.onAppCmd c] else [])
        ++ [Act.post_exec c] ∧
    process_cmd K onAppCmd s =
      Outcome.returned (android_app_post_exec_cmd K
        (call_onAppCmd onAppCmd
          (android_app_pre_exec_cmd K (android_app_read_cmd K s).state c) c) c) ∧
    (∀ x : Sys ME KE, (call_onAppCmd onAppCmd x c).app =
      (match onAppCmd with | some f => f x.app c | none => x.app)) := by
  obtain ⟨h1, h2, -, l1, ht1, hq1⟩ := read_cmd_of_bytes K s c rest hb hc
  have hp := process_cmd_of_returned K onAppCmd s _ c h1
  refine ⟨h1, ?_, ?_, hp, fun x => call_onAppCmd_app onAppCmd x c⟩
  · rw [hp, Outcome.state, post_exec_pipe, call_onAppCmd_pipe, pre_exec_pipe, h2]
  · obtain ⟨l2, ht2, hq2⟩ := pre_exec_log K (android_app_read_cmd K s).state c
    obtain ⟨l3, ht3, hq3⟩ := post_exec_log K
      (call_onAppCmd onAppCmd
        (android_app_pre_exec_cmd K (android_app_read_cmd K s).state c) c) c
    rw [hp, Outcome.state, newTrace_of_append s _ _ (by rw [ht3, call_onAppCmd_trace, ht2, ht1,
      List.append_assoc, List.append_assoc, List.append_assoc])]
    cases onAppCmd <;>
      simp [steps_append, steps, Act.isStep, List.filter_cons]
    all_goals
      have a1 := hq1.1; have a2 := hq2.1; have a3 := hq3.1
      simp only [steps] at a1 a2 a3
      simp [a1, a2, a3]


theorem pre_exec_app_of_not_mem (K : AppCmd) (s : Sys ME KE) (c : Int)
    (h : c ∉ K.preLabels) : (android_app_pre_exec_cmd K s c).app = s.app := by
  simp only [AppCmd.preLabels, List.mem_cons, List.mem_singleton, not_or, List.not_mem_nil,
    not_false_eq_true, and_true] at h
  obtain ⟨h0, h1, h2, h3, h4, h5, h6, h7, h8⟩ := h
  simp [android_app_pre_exec_cmd, h0, h1, h2, h3, h4, h5, h6, h7, h8]

theorem post_exec_app_of_not_mem (K : AppCmd) (s : Sys ME KE) (c : Int)
    (h : c ∉ K.postLabels) : (android_app_post_exec_cmd K s c).app = s.app := by
  simp only [AppCmd.postLabels, List.mem_cons, List.mem_singleton, not_or, List.not_mem_nil,
    not_false_eq_true, and_true] at h
  obtain ⟨h0, h1, h2⟩ := h
  simp [android_app_post_exec_cmd, h0, h1, h2]

/-- C10: when `read` on `msgread` returns without delivering one byte, `android_app_read_cmd`
returns `-1` and leaves every field of the struct and the pipe as they were; when `read`
delivers a byte `c` it returns `c`; `process_cmd` on the failed read returns, having entered
the pre hook, called `onAppCmd` exactly once (if non-NULL) and entered the post hook, all
with `cmd = -1`, and the
struct it leaves is the one `onAppCmd` returned; and, `-1` being no case label of either hook,
`android_app_pre_exec_cmd(-1)` and `android_app_post_exec_cmd(-1)` change no field. A `read`
that blocks on the empty working pipe is not a failed read: there `android_app_read_cmd` and
`process_cmd` do not return and nothing is reported. -/
theorem C10_failed_read_harmless (K : AppCmd) (onAppCmd : OnAppCmd ME KE) (s : Sys ME KE)
    (hr : s.pipe.read = ReadResult.failed) (hpre : (-1 : Int) ∉ K.preLabels)
    (hpost : (-1 : Int) ∉ K.postLabels) :
    android_app_read_cmd K s = ReadCmd.returned (-1) (android_app_read_cmd K s).state ∧
    (android_app_read_cmd K s).state.app = s.app ∧
    (android_app_read_cmd K s).state.pipe = s.pipe ∧
    (∀ (t : Sys ME KE) (c : Int) (p : Pipe), t.pipe.read = ReadResult.delivered c p →
      android_app_read_cmd K t = ReadCmd.returned c (android_app_read_cmd K t).state) ∧
    process_cmd K onAppCmd s = Outcome.returned (process_cmd K onAppCmd s).state ∧
    steps (newTrace s (process_cmd K onAppCmd s).state) =
      [Act.pre_exec (-1)] ++ (if onAppCmd.isSome then [Act.onAppCmd (-1)] else [])
        ++ [Act.post_exec (-1)] ∧
    (process_cmd K onAppCmd s).state.app =
      (match onAppCmd with | some f => f s.app (-1) | none => s.app) ∧
    (∀ x : Sys ME KE, (android_app_pre_exec_cmd K x (-1)).app = x.app ∧
      (android_app_post_exec_cmd K x (-1)).app = x.app) ∧
    (∀ t : Sys ME KE, t.pipe.read = ReadResult.blocks →
      android_app_read_cmd K t = ReadCmd.blocked t ∧
      process_cmd K onAppCmd t = Outcome.blocked t) := by
  have h0 := read_cmd_of_failed K s hr
  have hp := process_cmd_of_returned K onAppCmd s _ _ h0
  refine ⟨by rw [h0]; rfl, by rw [h0]; rfl, by rw [h0]; rfl, ?_, by rw [hp]; rfl, ?_, ?_,
    fun x => ⟨pre_exec_app_of_not_mem K x _ hpre, post_exec_app_of_not_mem K x _ hpost⟩,
    fun t ht => ⟨read_cmd_of_blocks K t ht,
      process_cmd_of_blocked K onAppCmd t t (read_cmd_of_blocks K t ht)⟩⟩
  · intro t c p ht
    unfold android_app_read_cmd
    rw [ht]
    rfl
  · obtain ⟨l2, ht2, hq2⟩ := pre_exec_log K (emit Act.loge s) (-1)
    obtain ⟨l3, ht3, hq3⟩ := post_exec_log K
      (call_onAppCmd onAppCmd (android_app_pre_exec_cmd K (emit Act.loge s) (-1)) (-1)) (-1)
    rw [hp, Outcome.state, newTrace_of_append s _ _ (by rw [ht3, call_onAppCmd_trace, ht2,
      emit_trace, List.append_assoc, List.append_assoc, List.append_assoc])]
    have a2 := hq2.1
    have a3 := hq3.1
    simp only [steps] at a2 a3
    cases onAppCmd <;>
      simp [steps, Act.isStep, List.filter_cons, a2, a3]
  · rw [hp, Outcome.state, post_exec_app_of_not_mem K _ _ hpost, call_onAppCmd_app,
      pre_exec_app_of_not_mem K _ _ hpre]
    rfl

/-- C5: with the case labels of the pre hook pairwise distinct (as C requires of one
`switch`), `android_app_pre_exec_cmd(c)` sets `activityState` to `c` and changes no other field
when `c` is `APP_CMD_START`, `APP_CMD_RESUME`, `APP_CMD_PAUSE` or `APP_CMD_STOP`, and leaves
`activityState` unchanged for every other `c`. -/
theorem C5_pre_exec_activityState (K : AppCmd) (s : Sys ME KE) (c : Int)
    (hK : K.preLabels.Nodup) :
    (c ∈ [K.APP_CMD_START, K.APP_CMD_RESUME, K.APP_CMD_PAUSE, K.APP_CMD_STOP] →
        (android_app_pre_exec_cmd K s c).app = { s.app with activityState := c }) ∧
    (c ∉ [K.APP_CMD_START, K.APP_CMD_RESUME, K.APP_CMD_PAUSE, K.APP_CMD_STOP] →
        (android_app_pre_exec_cmd K s c).app.activityState = s.app.activityState) := by
  simp only [AppCmd.preLabels, List.nodup_cons, List.mem_cons, List.mem_singleton, not_or,
    List.not_mem_nil, not_false_eq_true, List.nodup_nil, and_true, List.mem_nil_iff,
    or_false] at hK ⊢
  obtain ⟨⟨h01, h02, h03, h04, h05, h06, h07, h08⟩, ⟨h12, h13, h14, h15, h16, h17, h18⟩,
    ⟨h23, h24, h25, h26, h27, h28⟩, -⟩ := hK
  constructor
  · rintro (h | h | h | h) <;> subst h <;>
      simp [android_app_pre_exec_cmd, pthread_mutex_lock, pthread_mutex_unlock,
        pthread_cond_broadcast, *, Ne.symm]
  · rintro ⟨h1, h2, h3, h4⟩
    simp only [android_app_pre_exec_cmd, pthread_mutex_lock, pthread_mutex_unlock,
        pthread_cond_broadcast]
    split_ifs <;> simp_all

/-- C4 (amended): started without the mutex, `android_app_read_cmd`,
`android_app_post_exec_cmd` and `android_app_destroy` perform every store to the struct and
every broadcast while the mutex is held, and so does `android_app_pre_exec_cmd` except for
exactly two actions: the broadcast of its `APP_CMD_TERM_WINDOW` case and the store
`destroyRequested = 1` of its `APP_CMD_DESTROY` case, which happen without the mutex. -/
theorem C4_mutex_guard (K : AppCmd) (s : Sys ME KE) (c : Int) (hK : K.preLabels.Nodup) :
    unguarded false (newTrace s (android_app_read_cmd K s).state) = [] ∧
    unguarded false (newTrace s (android_app_pre_exec_cmd K s c)) =
      (if c = K.APP_CMD_TERM_WINDOW then [Act.broadcast]
       else if c = K.APP_CMD_DESTROY then [Act.store Field.destroyRequested] else []) ∧
    unguarded false (newTrace s (android_app_post_exec_cmd K s c)) = [] ∧
    unguarded false (newTrace s (android_app_destroy s)) = [] := by
  simp only [AppCmd.preLabels, List.nodup_cons, List.mem_cons, List.mem_singleton, not_or,
    List.not_mem_nil, not_false_eq_true, List.nodup_nil, and_true] at hK
  obtain ⟨⟨h01, h02, h03, h04, h05, h06, h07, h08⟩, ⟨h12, h13, h14, h15, h16, h17, h18⟩,
    ⟨h23, h24, h25, h26, h27, h28⟩, ⟨h34, h35, h36, h37, h38⟩, ⟨h45, h46, h47, h48⟩,
    ⟨h56, h57, h58⟩, ⟨h67, h68⟩, h78⟩ := hK
  refine ⟨?_, ?_, ?_, ?_⟩
  · unfold android_app_read_cmd
    rcases hr : s.pipe.read with ⟨c, p⟩ | _ | _
    · by_cases hc : c = K.APP_CMD_SAVE_STATE
      · by_cases h : s.app.savedState = NULL <;>
          simp [ReadCmd.state, newTrace, unguarded, Act.isSharedAccess, hc,
            free_saved_state_trace, h]
      · simp [ReadCmd.state, newTrace, unguarded, Act.isSharedAccess, hc]
    · simp [ReadCmd.state, newTrace, unguarded, Act.isSharedAccess]
    · simp [ReadCmd.state, newTrace, unguarded]
  · by_cases t : c = K.APP_CMD_TERM_WINDOW
    · subst t
      simp [android_app_pre_exec_cmd, newTrace, unguarded, Act.isSharedAccess,
        pthread_cond_broadcast, Ne.symm h02, Ne.symm h12]
    · by_cases d : c = K.APP_CMD_DESTROY
      · subst d
        simp [android_app_pre_exec_cmd, newTrace, unguarded, Act.isSharedAccess,
          Ne.symm h08, Ne.symm h18, Ne.symm h28, Ne.symm h38, Ne.symm h48, Ne.symm h58,
          Ne.symm h68, Ne.symm h78]
      · rw [if_neg t, if_neg d]
        unfold android_app_pre_exec_cmd
        split_ifs <;>
          simp [newTrace, unguarded, Act.isSharedAccess, pthread_mutex_lock,
            pthread_mutex_unlock, pthread_cond_broadcast]
  · unfold android_app_post_exec_cmd
    split_ifs
    · simp [newTrace, unguarded, Act.isSharedAccess, pthread_mutex_lock,
        pthread_mutex_unlock, pthread_cond_broadcast]
    · simp [newTrace, unguarded, Act.isSharedAccess, pthread_mutex_lock,
        pthread_mutex_unlock, pthread_cond_broadcast]
    · by_cases h : s.app.savedState = NULL <;>
        simp [newTrace, unguarded, Act.isSharedAccess, free_saved_state_trace, h]
    · simp [newTrace, unguarded, Act.isSharedAccess]
  · unfold android_app_destroy
    by_cases h : s.app.savedState = NULL <;>
      simp [newTrace, unguarded, Act.isSharedAccess, free_saved_state_trace, h,
        pthread_mutex_lock, pthread_mutex_unlock, pthread_cond_broadcast]


/-! ### Input buffers -/

theorem storesAt_append (a : Arr) (l m : List Act) :
    storesAt a (l ++ m) = storesAt a l ++ storesAt a m := by
  induction l with
  | nil => rfl
  | cons x l ih =>
    cases x <;> simp [storesAt, ih]
    split_ifs <;> simp

theorem onTouchEvent_app (K : AppCmd) (s : Sys ME KE) (e : ME) :
    (onTouchEvent K s e).app =
      (if s.app.motionEventsCount < K.NATIVE_APP_GLUE_MAX_NUM_MOTION_EVENTS then
        { s.app with
          motionEvents := Function.update s.app.motionEvents s.app.motionEventsCount e
          motionEventsCount := s.app.motionEventsCount + 1 }
      else s.app) := by
  unfold onTouchEvent
  split_ifs with h <;> simp [pthread_mutex_lock, pthread_mutex_unlock, h]

theorem onTouchEvent_trace (K : AppCmd) (s : Sys ME KE) (e : ME) :
    (onTouchEvent K s e).trace = s.trace ++
      (if s.app.motionEventsCount < K.NATIVE_APP_GLUE_MAX_NUM_MOTION_EVENTS then
        [Act.lock, Act.storeAt Arr.motionEvents s.app.motionEventsCount,
          Act.store Field.motionEventsCount, Act.unlock]
      else [Act.lock, Act.unlock]) := by
  unfold onTouchEvent
  split_ifs with h <;> simp [pthread_mutex_lock, pthread_mutex_unlock, h]

theorem onTouchEvent_pipe (K : AppCmd) (s : Sys ME KE) (e : ME) :
    (onTouchEvent K s e).pipe = s.pipe := by
  unfold onTouchEvent
  by_cases h : s.app.motionEventsCount < K.NATIVE_APP_GLUE_MAX_NUM_MOTION_EVENTS <;>
    simp [pthread_mutex_lock, pthread_mutex_unlock, h]

theorem onKeyDown_app (K : AppCmd) (s : Sys ME KE) (e : KE) :
    (onKeyDown K s e).app =
      (if s.app.keyDownEventsCount < K.NATIVE_APP_GLUE_MAX_NUM_KEY_EVENTS then
        { s.app with
          keyDownEvents := Function.update s.app.keyDownEvents s.app.keyDownEventsCount e
          keyDownEventsCount := s.app.keyDownEventsCount + 1 }
      else s.app) := by
  unfold onKeyDown
  split_ifs with h <;> simp [pthread_mutex_lock, pthread_mutex_unlock, h]

theorem onKeyDown_trace (K : AppCmd) (s : Sys ME KE) (e : KE) :
    (onKeyDown K s e).trace = s.trace ++
      (if s.app.keyDownEventsCount < K.NATIVE_APP_GLUE_MAX_NUM_KEY_EVENTS then
        [Act.lock, Act.storeAt Arr.keyDownEvents s.app.keyDownEventsCount,
          Act.store Field.keyDownEventsCount, Act.unlock]
      else [Act.lock, Act.unlock]) := by
  unfold onKeyDown
  split_ifs with h <;> simp [pthread_mutex_lock, pthread_mutex_unlock, h]

theorem onKeyDown_pipe (K : AppCmd) (s : Sys ME KE) (e : KE) :
    (onKeyDown K s e).pipe = s.pipe := by
  unfold onKeyDown
  by_cases h : s.app.keyDownEventsCount < K.NATIVE_APP_GLUE_MAX_NUM_KEY_EVENTS <;>
    simp [pthread_mutex_lock, pthread_mutex_unlock, h]

theorem onKeyUp_app (K : AppCmd) (s : Sys ME KE) (e : KE) :
    (onKeyUp K s e).app =
      (if s.app.keyUpEventsCount < K.NATIVE_APP_GLUE_MAX_NUM_KEY_EVENTS then
        { s.app with
          keyUpEvents := Function.update s.app.keyUpEvents s.app.keyUpEventsCount e
          keyUpEventsCount := s.app.keyUpEventsCount + 1 }
      else s.app) := by
  unfold onKeyUp
  split_ifs with h <;> simp [pthread_mutex_lock, pthread_mutex_unlock, h]

theorem onKeyUp_trace (K : AppCmd) (s : Sys ME KE) (e : KE) :
    (onKeyUp K s e).trace = s.trace ++
      (if s.app.keyUpEventsCount < K.NATIVE_APP_GLUE_MAX_NUM_KEY_EVENTS then
        [Act.lock, Act.storeAt Arr.keyUpEvents s.app.keyUpEventsCount,
          Act.store Field.keyUpEventsCount, Act.unlock]
      else [Act.lock, Act.unlock]) := by
  unfold onKeyUp
  split_ifs with h <;> simp [pthread_mutex_lock, pthread_mutex_unlock, h]

theorem onKeyUp_pipe (K : AppCmd) (s : Sys ME KE) (e : KE) :
    (onKeyUp K s e).pipe = s.pipe := by
  unfold onKeyUp
  by_cases h : s.app.keyUpEventsCount < K.NATIVE_APP_GLUE_MAX_NUM_KEY_EVENTS <;>
    simp [pthread_mutex_lock, pthread_mutex_unlock, h]

theorem clear_motion_app (s : Sys ME KE) :
    (android_app_clear_motion_events s).app = { s.app with motionEventsCount := 0 } := by
  unfold android_app_clear_motion_events
  by_cases h : s.app.motionEventsCount = 0
  · simp [pthread_mutex_lock, pthread_mutex_unlock, h]
    rw [← h]
  · simp [pthread_mutex_lock, pthread_mutex_unlock, h]

theorem clear_motion_trace (s : Sys ME KE) :
    (android_app_clear_motion_events s).trace = s.trace ++
      (if s.app.motionEventsCount ≠ 0 then
        [Act.lock, Act.store Field.motionEventsCount, Act.unlock]
      else [Act.lock, Act.unlock]) := by
  unfold android_app_clear_motion_events
  by_cases h : s.app.motionEventsCount = 0 <;>
    simp [pthread_mutex_lock, pthread_mutex_unlock, h]

theorem clear_key_down_app (s : Sys ME KE) :
    (android_app_clear_key_down_events s).app = { s.app with keyDownEventsCount := 0 } := by
  unfold android_app_clear_key_down_events
  by_cases h : s.app.keyDownEventsCount = 0
  · simp [pthread_mutex_lock, pthread_mutex_unlock, h]
    rw [← h]
  · simp [pthread_mutex_lock, pthread_mutex_unlock, h]

theorem clear_key_down_trace (s : Sys ME KE) :
    (android_app_clear_key_down_events s).trace = s.trace ++
      (if s.app.keyDownEventsCount ≠ 0 then
        [Act.lock, Act.store Field.keyDownEventsCount, Act.unlock]
      else [Act.lock, Act.unlock]) := by
  unfold android_app_clear_key_down_events
  by_cases h : s.app.keyDownEventsCount = 0 <;>
    simp [pthread_mutex_lock, pthread_mutex_unlock, h]

theorem clear_key_up_app (s : Sys ME KE) :
    (android_app_clear_key_up_events s).app = { s.app with keyUpEventsCount := 0 } := by
  unfold android_app_clear_key_up_events
  by_cases h : s.app.keyUpEventsCount = 0
  · simp [pthread_mutex_lock, pthread_mutex_unlock, h]
    rw [← h]
  · simp [pthread_mutex_lock, pthread_mutex_unlock, h]

theorem clear_key_up_trace (s : Sys ME KE) :
    (android_app_clear_key_up_events s).trace = s.trace ++
      (if s.app.keyUpEventsCount ≠ 0 then
        [Act.lock, Act.store Field.keyUpEventsCount, Act.unlock]
      else [Act.lock, Act.unlock]) := by
  unfold android_app_clear_key_up_events
  by_cases h : s.app.keyUpEventsCount = 0 <;>
    simp [pthread_mutex_lock, pthread_mutex_unlock, h]

theorem buffersOk_step (K : AppCmd) (s : Sys ME KE) (op : InputOp ME KE)
    (h : BuffersOk K s) : BuffersOk K (InputOp.run K s op) := by
  obtain ⟨h1, h2, h3, h4, h5, h6⟩ := h
  cases op with
  | touch e =>
    simp only [InputOp.run, BuffersOk, onTouchEvent_app, onTouchEvent_trace, storesAt_append]
    split_ifs with hc
    · simp_all [storesAt]
      exact ⟨hc, fun i hi => hi.elim (fun h => h4 i h) (fun h => h ▸ hc)⟩
    · simp_all [storesAt]
  | keyDown e =>
    simp only [InputOp.run, BuffersOk, onKeyDown_app, onKeyDown_trace, storesAt_append]
    split_ifs with hc
    · simp_all [storesAt]
      exact ⟨hc, fun i hi => hi.elim (fun h => h5 i h) (fun h => h ▸ hc)⟩
    · simp_all [storesAt]
  | keyUp e =>
    simp only [InputOp.run, BuffersOk, onKeyUp_app, onKeyUp_trace, storesAt_append]
    split_ifs with hc
    · simp_all [storesAt]
      exact ⟨hc, fun i hi => hi.elim (fun h => h6 i h) (fun h => h ▸ hc)⟩
    · simp_all [storesAt]
  | clearMotion =>
    simp only [InputOp.run, BuffersOk, clear_motion_app, clear_motion_trace, storesAt_append]
    split_ifs with hc <;> simp_all [storesAt]
  | clearKeyDown =>
    simp only [InputOp.run, BuffersOk, clear_key_down_app, clear_key_down_trace,
      storesAt_append]
    split_ifs with hc <;> simp_all [storesAt]
  | clearKeyUp =>
    simp only [InputOp.run, BuffersOk, clear_key_up_app, clear_key_up_trace, storesAt_append]
    split_ifs with hc <;> simp_all [storesAt]

theorem buffersOk_run (K : AppCmd) (ops : List (InputOp ME KE)) (s : Sys ME KE)
    (h : BuffersOk K s) : BuffersOk K (runInput K s ops) := by
  induction ops generalizing s with
  | nil => exact h
  | cons op ops ih => exact ih _ (buffersOk_step K s op h)

theorem buffersOk_zero (K : AppCmd) (zm : ME) (zk : KE) : BuffersOk K (Sys.zero zm zk) := by
  simp [BuffersOk, Sys.zero, android_app.zero, storesAt]


/-- C8: in every state reached from the zero-filled struct by any sequence of `onTouchEvent`,
`onKeyDown`, `onKeyUp` and the three clear functions, the three counts are at most their
capacities, every `memcpy` into an event array performed so far went to an index strictly
below the capacity of that array, and an event that arrives while its buffer is full changes
neither the struct nor the pipe: the handler only locks and unlocks the mutex. -/
theorem C8_input_buffers_never_overflow (K : AppCmd) (zm : ME) (zk : KE)
    (ops : List (InputOp ME KE)) :
    (runInput K (Sys.zero zm zk) ops).app.motionEventsCount
        ≤ K.NATIVE_APP_GLUE_MAX_NUM_MOTION_EVENTS ∧
    (runInput K (Sys.zero zm zk) ops).app.keyDownEventsCount
        ≤ K.NATIVE_APP_GLUE_MAX_NUM_KEY_EVENTS ∧
    (runInput K (Sys.zero zm zk) ops).app.keyUpEventsCount
        ≤ K.NATIVE_APP_GLUE_MAX_NUM_KEY_EVENTS ∧
    (∀ i ∈ storesAt Arr.motionEvents (runInput K (Sys.zero zm zk) ops).trace,
        i < K.NATIVE_APP_GLUE_MAX_NUM_MOTION_EVENTS) ∧
    (∀ i ∈ storesAt Arr.keyDownEvents (runInput K (Sys.zero zm zk) ops).trace,
        i < K.NATIVE_APP_GLUE_MAX_NUM_KEY_EVENTS) ∧
    (∀ i ∈ storesAt Arr.keyUpEvents (runInput K (Sys.zero zm zk) ops).trace,
        i < K.NATIVE_APP_GLUE_MAX_NUM_KEY_EVENTS) ∧
    (∀ e : ME, (runInput K (Sys.zero zm zk) ops).app.motionEventsCount
          = K.NATIVE_APP_GLUE_MAX_NUM_MOTION_EVENTS →
        (onTouchEvent K (runInput K (Sys.zero zm zk) ops) e).app
          = (runInput K (Sys.zero zm zk) ops).app ∧
        (onTouchEvent K (runInput K (Sys.zero zm zk) ops) e).pipe
          = (runInput K (Sys.zero zm zk) ops).pipe ∧
        newTrace (runInput K (Sys.zero zm zk) ops)
          (onTouchEvent K (runInput K (Sys.zero zm zk) ops) e) = [Act.lock, Act.unlock]) ∧
    (∀ e : KE, (runInput K (Sys.zero zm zk) ops).app.keyDownEventsCount
          = K.NATIVE_APP_GLUE_MAX_NUM_KEY_EVENTS →
        (onKeyDown K (runInput K (Sys.zero zm zk) ops) e).app
          = (runInput K (Sys.zero zm zk) ops).app ∧
        (onKeyDown K (runInput K (Sys.zero zm zk) ops) e).pipe
          = (runInput K (Sys.zero zm zk) ops).pipe ∧
        newTrace (runInput K (Sys.zero zm zk) ops)
          (onKeyDown K (runInput K (Sys.zero zm zk) ops) e) = [Act.lock, Act.unlock]) ∧
    (∀ e : KE, (runInput K (Sys.zero zm zk) ops).app.keyUpEventsCount
          = K.NATIVE_APP_GLUE_MAX_NUM_KEY_EVENTS →
        (onKeyUp K (runInput K (Sys.zero zm zk) ops) e).app
          = (runInput K (Sys.zero zm zk) ops).app ∧
        (onKeyUp K (runInput K (Sys.zero zm zk) ops) e).pipe
          = (runInput K (Sys.zero zm zk) ops).pipe ∧
        newTrace (runInput K (Sys.zero zm zk) ops)
          (onKeyUp K (runInput K (Sys.zero zm zk) ops) e) = [Act.lock, Act.unlock]) := by
  obtain ⟨h1, h2, h3, h4, h5, h6⟩ := buffersOk_run K ops _ (buffersOk_zero K zm zk)
  refine ⟨h1, h2, h3, h4, h5, h6, ?_, ?_, ?_⟩
  · intro e hfull
    refine ⟨?_, onTouchEvent_pipe K _ e, ?_⟩
    · rw [onTouchEvent_app, if_neg (by omega)]
    · rw [newTrace_of_append _ _ _ (onTouchEvent_trace K _ e), if_neg (by omega)]
  · intro e hfull
    refine ⟨?_, onKeyDown_pipe K _ e, ?_⟩
    · rw [onKeyDown_app, if_neg (by omega)]
    · rw [newTrace_of_append _ _ _ (onKeyDown_trace K _ e), if_neg (by omega)]
  · intro e hfull
    refine ⟨?_, onKeyUp_pipe K _ e, ?_⟩
    · rw [onKeyUp_app, if_neg (by omega)]
    · rw [newTrace_of_append _ _ _ (onKeyUp_trace K _ e), if_neg (by omega)]

/-! ### Arrival order -/

theorem pushEvent_foldl {E : Type} (cap : Nat) (es : List E) (b : (Nat → E) × Nat)
    (hb : b.2 ≤ cap) :
    (es.foldl (pushEvent cap) b).2 = min (b.2 + es.length) cap ∧
    (∀ i, i < b.2 → (es.foldl (pushEvent cap) b).1 i = b.1 i) ∧
    (∀ j, b.2 + j < cap → j < es.length →
      es[j]? = some ((es.foldl (pushEvent cap) b).1 (b.2 + j))) := by
  induction es generalizing b with
  | nil =>
    refine ⟨by simp [Nat.min_eq_left hb], fun i _ => rfl, fun j _ hj => ?_⟩
    simp at hj
  | cons e es ih =>
    simp only [List.foldl_cons, List.length_cons]
    by_cases hlt : b.2 < cap
    · have hp : pushEvent cap b e = (Function.update b.1 b.2 e, b.2 + 1) := by
        simp [pushEvent, hlt]
      obtain ⟨i1, i2, i3⟩ := ih (pushEvent cap b e) (by rw [hp]; exact hlt)
      rw [hp] at i1 i2 i3
      simp only at i1 i2 i3
      refine ⟨?_, ?_, ?_⟩
      · rw [hp, i1]; congr 1; omega
      · intro i hi
        rw [hp, i2 i (by omega), Function.update_noteq (by omega)]
      · intro j hj hjl
        rw [hp]
        cases j with
        | zero =>
          simp only [Nat.add_zero]
          rw [i2 b.2 (by omega)]
          simp
        | succ j =>
          have := i3 j (by omega) (by omega)
          have e1 : b.2 + (j + 1) = b.2 + 1 + j := by omega
          simp only [List.getElem?_cons_succ]
          rw [e1]
          exact this
    · have hp : pushEvent cap b e = b := by simp [pushEvent, hlt]
      obtain ⟨i1, i2, i3⟩ := ih b hb
      rw [hp]
      refine ⟨?_, i2, ?_⟩
      · rw [i1]
        have : b.2 = cap := by omega
        omega
      · intro j hj _
        omega

theorem motionBuf_onTouchEvent (K : AppCmd) (s : Sys ME KE) (e : ME) :
    motionBuf (onTouchEvent K s e) =
      pushEvent K.NATIVE_APP_GLUE_MAX_NUM_MOTION_EVENTS (motionBuf s) e := by
  simp only [motionBuf, pushEvent, onTouchEvent_app]
  split_ifs <;> rfl

theorem keyDownBuf_onKeyDown (K : AppCmd) (s : Sys ME KE) (e : KE) :
    keyDownBuf (onKeyDown K s e) =
      pushEvent K.NATIVE_APP_GLUE_MAX_NUM_KEY_EVENTS (keyDownBuf s) e := by
  simp only [keyDownBuf, pushEvent, onKeyDown_app]
  split_ifs <;> rfl

theorem keyUpBuf_onKeyUp (K : AppCmd) (s : Sys ME KE) (e : KE) :
    keyUpBuf (onKeyUp K s e) =
      pushEvent K.NATIVE_APP_GLUE_MAX_NUM_KEY_EVENTS (keyUpBuf s) e := by
  simp only [keyUpBuf, pushEvent, onKeyUp_app]
  split_ifs <;> rfl

theorem motionBuf_foldl (K : AppCmd) (es : List ME) (s : Sys ME KE) :
    motionBuf (es.foldl (onTouchEvent K) s) =
      es.foldl (pushEvent K.NATIVE_APP_GLUE_MAX_NUM_MOTION_EVENTS) (motionBuf s) := by
  induction es generalizing s with
  | nil => rfl
  | cons e es ih => simp only [List.foldl_cons, ih, motionBuf_onTouchEvent]

theorem keyDownBuf_foldl (K : AppCmd) (es : List KE) (s : Sys ME KE) :
    keyDownBuf (es.foldl (onKeyDown K) s) =
      es.foldl (pushEvent K.NATIVE_APP_GLUE_MAX_NUM_KEY_EVENTS) (keyDownBuf s) := by
  induction es generalizing s with
  | nil => rfl
  | cons e es ih => simp only [List.foldl_cons, ih, keyDownBuf_onKeyDown]

theorem keyUpBuf_foldl (K : AppCmd) (es : List KE) (s : Sys ME KE) :
    keyUpBuf (es.foldl (onKeyUp K) s) =
      es.foldl (pushEvent K.NATIVE_APP_GLUE_MAX_NUM_KEY_EVENTS) (keyUpBuf s) := by
  induction es generalizing s with
  | nil => rfl
  | cons e es ih => simp only [List.foldl_cons, ih, keyUpBuf_onKeyUp]

theorem pushEvent_from_empty {E : Type} (cap : Nat) (es : List E) (arr : Nat → E) :
    (es.foldl (pushEvent cap) (arr, 0)).2 = min es.length cap ∧
    (∀ i, i < min es.length cap → es[i]? = some ((es.foldl (pushEvent cap) (arr, 0)).1 i)) := by
  obtain ⟨h1, -, h3⟩ := pushEvent_foldl cap es (arr, 0) (Nat.zero_le _)
  refine ⟨by simpa using h1, fun i hi => ?_⟩
  have := h3 i (by simp only [Nat.zero_add]; omega) (by omega)
  simpa using this


/-- C9: from any state, after `android_app_clear_motion_events` followed by `onTouchEvent`
on the events `ms` in order, `motionEventsCount = min (length ms) MAX` and `motionEvents[i]` is
the `i`-th event of `ms` for every `i` below that count; clearing twice gives the same struct
as clearing once, and clearing changes no field but `motionEventsCount`, which becomes 0. The
same holds for `onKeyDown` and `onKeyUp` with their clear functions and the key capacity. -/
theorem C9_events_in_arrival_order (K : AppCmd) (s : Sys ME KE) (ms : List ME)
    (ds us : List KE) :
    ((ms.foldl (onTouchEvent K) (android_app_clear_motion_events s)).app.motionEventsCount
        = min ms.length K.NATIVE_APP_GLUE_MAX_NUM_MOTION_EVENTS ∧
      (∀ i, i < min ms.length K.NATIVE_APP_GLUE_MAX_NUM_MOTION_EVENTS →
        ms[i]? = some
          ((ms.foldl (onTouchEvent K) (android_app_clear_motion_events s)).app.motionEvents i)) ∧
      (android_app_clear_motion_events (android_app_clear_motion_events s)).app
        = (android_app_clear_motion_events s).app ∧
      (android_app_clear_motion_events s).app = { s.app with motionEventsCount := 0 }) ∧
    ((ds.foldl (onKeyDown K) (android_app_clear_key_down_events s)).app.keyDownEventsCount
        = min ds.length K.NATIVE_APP_GLUE_MAX_NUM_KEY_EVENTS ∧
      (∀ i, i < min ds.length K.NATIVE_APP_GLUE_MAX_NUM_KEY_EVENTS →
        ds[i]? = some
          ((ds.foldl (onKeyDown K) (android_app_clear_key_down_events s)).app.keyDownEvents i)) ∧
      (android_app_clear_key_down_events (android_app_clear_key_down_events s)).app
        = (android_app_clear_key_down_events s).app ∧
      (android_app_clear_key_down_events s).app = { s.app with keyDownEventsCount := 0 }) ∧
    ((us.foldl (onKeyUp K) (android_app_clear_key_up_events s)).app.keyUpEventsCount
        = min us.length K.NATIVE_APP_GLUE_MAX_NUM_KEY_EVENTS ∧
      (∀ i, i < min us.length K.NATIVE_APP_GLUE_MAX_NUM_KEY_EVENTS →
        us[i]? = some
          ((us.foldl (onKeyUp K) (android_app_clear_key_up_events s)).app.keyUpEvents i)) ∧
      (android_app_clear_key_up_events (android_app_clear_key_up_events s)).app
        = (android_app_clear_key_up_events s).app ∧
      (android_app_clear_key_up_events s).app = { s.app with keyUpEventsCount := 0 }) := by
  refine ⟨⟨?_, ?_, ?_, clear_motion_app s⟩, ⟨?_, ?_, ?_, clear_key_down_app s⟩,
    ⟨?_, ?_, ?_, clear_key_up_app s⟩⟩
  · have h := motionBuf_foldl K ms (android_app_clear_motion_events s)
    have h0 : motionBuf (android_app_clear_motion_events s) = (s.app.motionEvents, 0) := by
      simp [motionBuf, clear_motion_app]
    rw [h0] at h
    have := (pushEvent_from_empty K.NATIVE_APP_GLUE_MAX_NUM_MOTION_EVENTS ms
      s.app.motionEvents).1
    rw [← h] at this
    exact this
  · intro i hi
    have h := motionBuf_foldl K ms (android_app_clear_motion_events s)
    have h0 : motionBuf (android_app_clear_motion_events s) = (s.app.motionEvents, 0) := by
      simp [motionBuf, clear_motion_app]
    rw [h0] at h
    have := (pushEvent_from_empty K.NATIVE_APP_GLUE_MAX_NUM_MOTION_EVENTS ms
      s.app.motionEvents).2 i hi
    rw [← h] at this
    exact this
  · rw [clear_motion_app, clear_motion_app]
  · have h := keyDownBuf_foldl K ds (android_app_clear_key_down_events s)
    have h0 : keyDownBuf (android_app_clear_key_down_events s) = (s.app.keyDownEvents, 0) := by
      simp [keyDownBuf, clear_key_down_app]
    rw [h0] at h
    have := (pushEvent_from_empty K.NATIVE_APP_GLUE_MAX_NUM_KEY_EVENTS ds
      s.app.keyDownEvents).1
    rw [← h] at this
    exact this
  · intro i hi
    have h := keyDownBuf_foldl K ds (android_app_clear_key_down_events s)
    have h0 : keyDownBuf (android_app_clear_key_down_events s) = (s.app.keyDownEvents, 0) := by
      simp [keyDownBuf, clear_key_down_app]
    rw [h0] at h
    have := (pushEvent_from_empty K.NATIVE_APP_GLUE_MAX_NUM_KEY_EVENTS ds
      s.app.keyDownEvents).2 i hi
    rw [← h] at this
    exact this
  · rw [clear_key_down_app, clear_key_down_app]
  · have h := keyUpBuf_foldl K us (android_app_clear_key_up_events s)
    have h0 : keyUpBuf (android_app_clear_key_up_events s) = (s.app.keyUpEvents, 0) := by
      simp [keyUpBuf, clear_key_up_app]
    rw [h0] at h
    have := (pushEvent_from_empty K.NATIVE_APP_GLUE_MAX_NUM_KEY_EVENTS us
      s.app.keyUpEvents).1
    rw [← h] at this
    exact this
  · intro i hi
    have h := keyUpBuf_foldl K us (android_app_clear_key_up_events s)
    have h0 : keyUpBuf (android_app_clear_key_up_events s) = (s.app.keyUpEvents, 0) := by
      simp [keyUpBuf, clear_key_up_app]
    rw [h0] at h
    have := (pushEvent_from_empty K.NATIVE_APP_GLUE_MAX_NUM_KEY_EVENTS us
      s.app.keyUpEvents).2 i hi
    rw [← h] at this
    exact this
  · rw [clear_key_up_app, clear_key_up_app]

/-! ### The window hand-off -/

theorem free_saved_state_window (s : Sys ME KE) :
    (free_saved_state s).app.window = s.app.window ∧
    (free_saved_state s).app.pendingWindow = s.app.pendingWindow := by
  unfold free_saved_state
  by_cases h : s.app.savedState = NULL <;> simp [pthread_mutex_lock, pthread_mutex_unlock, h]

theorem cond_wait_loop_of_false (cond : android_app ME KE → Bool)
    (other : Sys ME KE → Outcome ME KE) (fuel : Nat) (s : Sys ME KE) (h : cond s.app = false) :
    cond_wait_loop cond other fuel s = Outcome.returned s := by
  cases fuel <;> simp [cond_wait_loop, h]

theorem cond_wait_loop_of_true (cond : android_app ME KE → Bool)
    (other : Sys ME KE → Outcome ME KE) (fuel : Nat) (s t : Sys ME KE)
    (h : cond s.app = true) (ho : other (emit Act.wait s) = Outcome.returned t) :
    cond_wait_loop cond other (fuel + 1) s = cond_wait_loop cond other fuel t := by
  simp [cond_wait_loop, h, ho]

theorem process_cmd_window (K : AppCmd) (onAppCmd : OnAppCmd ME KE) (s : Sys ME KE)
    (c : Int) (rest : List Int) (hK : K.preLabels.Nodup)
    (hb : s.pipe.broken = false) (hc : s.pipe.bytes = c :: rest)
    (hcb : ∀ f, onAppCmd = some f → ∀ a k,
      (f a k).window = a.window ∧ (f a k).pendingWindow = a.pendingWindow) :
    ∃ t, process_cmd K onAppCmd s = Outcome.returned t ∧
      t.pipe = { s.pipe with bytes := rest } ∧
      t.app.pendingWindow = s.app.pendingWindow ∧
      t.app.window =
        (if c = K.APP_CMD_TERM_WINDOW then NULL
         else if c = K.APP_CMD_INIT_WINDOW then s.app.pendingWindow else s.app.window) := by
  simp only [AppCmd.preLabels, List.nodup_cons, List.mem_cons, List.mem_singleton, not_or,
    List.not_mem_nil, not_false_eq_true, List.nodup_nil, and_true] at hK
  obtain ⟨⟨h01, h02, -⟩, ⟨h12, -⟩, -⟩ := hK
  obtain ⟨h1, h2, h3, -⟩ := read_cmd_of_bytes K s c rest hb hc
  have hp := process_cmd_of_returned K onAppCmd s _ c h1
  have hr : (android_app_read_cmd K s).state.app.window = s.app.window ∧
      (android_app_read_cmd K s).state.app.pendingWindow = s.app.pendingWindow := by
    rw [h3]; split_ifs <;> simp
  generalize (android_app_read_cmd K s).state = r at hp hr h2
  have hpre : (android_app_pre_exec_cmd K r c).app.pendingWindow = r.app.pendingWindow ∧
      (android_app_pre_exec_cmd K r c).app.window =
        (if c = K.APP_CMD_INIT_WINDOW then r.app.pendingWindow else r.app.window) := by
    clear hp h1
    unfold android_app_pre_exec_cmd
    split_ifs <;> simp_all [pthread_mutex_lock, pthread_mutex_unlock, pthread_cond_broadcast]
  have hcall : ∀ x : Sys ME KE, (call_onAppCmd onAppCmd x c).app.window = x.app.window ∧
      (call_onAppCmd onAppCmd x c).app.pendingWindow = x.app.pendingWindow := by
    intro x
    cases hcb' : onAppCmd with
    | none => exact ⟨rfl, rfl⟩
    | some f => exact hcb f hcb' x.app c
  have hpost : ∀ x : Sys ME KE,
      (android_app_post_exec_cmd K x c).app.pendingWindow = x.app.pendingWindow ∧
      (android_app_post_exec_cmd K x c).app.window =
        (if c = K.APP_CMD_TERM_WINDOW then NULL else x.app.window) := by
    intro x
    clear hp h1
    unfold android_app_post_exec_cmd
    split_ifs <;>
      simp_all [pthread_mutex_lock, pthread_mutex_unlock, pthread_cond_broadcast,
        free_saved_state_window]
  refine ⟨_, hp, ?_, ?_, ?_⟩
  · rw [post_exec_pipe, call_onAppCmd_pipe, pre_exec_pipe, h2]
  · rw [(hpost _).1, (hcall _).2, hpre.1, hr.2]
  · rw [(hpost _).2, (hcall _).1, hpre.2, hr.1, hr.2]

/-! ### Main-thread operations -/

@[simp]
theorem write_cmd_app (s : Sys ME KE) (c : Int) : (android_app_write_cmd s c).app = s.app := by
  unfold android_app_write_cmd
  cases s.pipe.write c <;> rfl

theorem write_cmd_ok (s : Sys ME KE) (c : Int) (hb : s.pipe.broken = false) :
    android_app_write_cmd s c =
      { s with pipe := { s.pipe with bytes := s.pipe.bytes ++ [c] },
               trace := s.trace ++ [Act.pipeWrite c] } := by
  simp [android_app_write_cmd, Pipe.write, hb, emit]

theorem set_window_head (K : AppCmd) (s : Sys ME KE) (w : Ptr) :
    ∃ H : Sys ME KE,
      (∀ (other : Sys ME KE → Outcome ME KE) (fuel : Nat),
        android_app_set_window K other fuel s w =
          (cond_wait_loop (fun a => a.window != a.pendingWindow) other fuel H).andThen
            pthread_mutex_unlock) ∧
      H.app.window = s.app.window ∧ H.app.pendingWindow = w ∧
      (s.pipe.broken = false →
        H.pipe = { s.pipe with bytes := s.pipe.bytes ++
          ((if s.app.pendingWindow ≠ NULL then [K.APP_CMD_TERM_WINDOW] else []) ++
            (if w ≠ NULL then [K.APP_CMD_INIT_WINDOW] else [])) } ∧
        pipeWrites H.trace = pipeWrites s.trace ++
          ((if s.app.pendingWindow ≠ NULL then [K.APP_CMD_TERM_WINDOW] else []) ++
            (if w ≠ NULL then [K.APP_CMD_INIT_WINDOW] else []))) := by
  refine ⟨_, fun _ _ => rfl, ?_, ?_, ?_⟩
  · by_cases hp : s.app.pendingWindow = NULL <;> by_cases hw : w = NULL <;>
      simp [pthread_mutex_lock, hp, hw]
  · by_cases hp : s.app.pendingWindow = NULL <;> by_cases hw : w = NULL <;>
      simp [pthread_mutex_lock, hp, hw]
  · intro hb
    by_cases hp : s.app.pendingWindow = NULL <;> by_cases hw : w = NULL <;>
      simp [pthread_mutex_lock, write_cmd_ok, hp, hw, hb, store, emit,
        pipeWrites_append, pipeWrites]
    rw [← hb]


theorem wait_zero_state (cond : android_app ME KE → Bool) (other : Sys ME KE → Outcome ME KE)
    (H : Sys ME KE) :
    ((cond_wait_loop cond other 0 H).andThen pthread_mutex_unlock).state.app = H.app ∧
    ((cond_wait_loop cond other 0 H).andThen pthread_mutex_unlock).state.pipe = H.pipe := by
  cases hc : cond H.app <;>
    simp [cond_wait_loop, hc, Outcome.andThen, Outcome.state, pthread_mutex_unlock]

theorem process_cmds_succ (K : AppCmd) (onAppCmd : OnAppCmd ME KE) (n : Nat) (s t : Sys ME KE)
    (h : process_cmd K onAppCmd s = Outcome.returned t) :
    process_cmds K onAppCmd (n + 1) s = process_cmds K onAppCmd n t := by
  simp [process_cmds, h]

/-- C6: take a state with `window == pendingWindow`, a working empty pipe, an `onAppCmd` that
leaves `window` and `pendingWindow` alone, and any new window `w`. Then
`android_app_set_window(w)` writes to the pipe `APP_CMD_TERM_WINDOW` when the old
`pendingWindow` is non-NULL followed by `APP_CMD_INIT_WINDOW` when `w` is non-NULL; the app
thread running `process_cmd` once for each of these bytes returns each time and ends with
`window == pendingWindow == w`; and with the app thread running `process_cmd` during each
wait, two waits are enough for `android_app_set_window` to return, in a state with
`window == pendingWindow == w`. -/
theorem C6_window_handoff_completes (K : AppCmd) (onAppCmd : OnAppCmd ME KE) (s : Sys ME KE)
    (w : Ptr) (other : Sys ME KE → Outcome ME KE) (fuel : Nat)
    (hK : K.preLabels.Nodup) (hwin : s.app.window = s.app.pendingWindow)
    (hb : s.pipe.broken = false) (he : s.pipe.bytes = [])
    (hcb : ∀ f, onAppCmd = some f → ∀ a k,
      (f a k).window = a.window ∧ (f a k).pendingWindow = a.pendingWindow) :
    (android_app_set_window K other 0 s w).state.pipe.bytes =
      (if s.app.pendingWindow ≠ NULL then [K.APP_CMD_TERM_WINDOW] else []) ++
        (if w ≠ NULL then [K.APP_CMD_INIT_WINDOW] else []) ∧
    (∃ t, process_cmds K onAppCmd
          (android_app_set_window K other 0 s w).state.pipe.bytes.length
          (android_app_set_window K other 0 s w).state = Outcome.returned t ∧
      t.app.window = w ∧ t.app.pendingWindow = w) ∧
    ∃ r, android_app_set_window K (process_cmd K onAppCmd) (fuel + 2) s w = Outcome.returned r ∧
      r.app.window = w ∧ r.app.pendingWindow = w := by
  obtain ⟨H, hH, hwH, hpH, hrest⟩ := set_window_head K s w
  obtain ⟨hpipe, -⟩ := hrest hb
  rw [he, List.nil_append] at hpipe
  have hK' := hK
  simp only [AppCmd.preLabels, List.nodup_cons, List.mem_cons, List.mem_singleton, not_or,
    List.not_mem_nil, not_false_eq_true, List.nodup_nil, and_true] at hK'
  obtain ⟨-, ⟨h12, -⟩, -⟩ := hK'
  -- the state in which the main thread stops with no help from the app thread
  have hst : ∃ S : Sys ME KE, (android_app_set_window K other 0 s w).state = S ∧
      S.app.window = s.app.window ∧ S.app.pendingWindow = w ∧ S.pipe = H.pipe := by
    obtain ⟨e1, e2⟩ := wait_zero_state (fun a => a.window != a.pendingWindow) other H
    refine ⟨_, rfl, ?_, ?_, ?_⟩ <;> rw [hH]
    · rw [e1, hwH]
    · rw [e1, hpH]
    · rw [e2]
  obtain ⟨S, hS, hwS, hpS, hpipeS⟩ := hst
  rw [hS, hpipeS, hpipe]
  have hSb : S.pipe.broken = false := by rw [hpipeS, hpipe]; exact hb
  have hHb : H.pipe.broken = false := by rw [hpipe]; exact hb
  by_cases hp : s.app.pendingWindow = NULL <;> by_cases hw : w = NULL
  · -- no command is written
    refine ⟨by simp [hp, hw], ⟨S, by simp [hp, hw, process_cmds], ?_, hpS⟩, ?_⟩
    · rw [hwS, hwin, hp, hw]
    · rw [hH, cond_wait_loop_of_false _ _ _ _ (by simp [hwH, hpH, hwin, hp, hw])]
      exact ⟨_, rfl, by simp [pthread_mutex_unlock, hwH, hwin, hp, hw],
        by simp [pthread_mutex_unlock, hpH]⟩
  · -- only APP_CMD_INIT_WINDOW
    have hSc : S.pipe.bytes = [K.APP_CMD_INIT_WINDOW] := by rw [hpipeS, hpipe]; simp [hp, hw]
    obtain ⟨T, hT, -, q2, q3⟩ := process_cmd_window K onAppCmd S _ _ hK hSb hSc hcb
    rw [if_neg h12, if_pos rfl] at q3
    refine ⟨by simp [hp, hw], ⟨T, ?_, by rw [q3, hpS], by rw [q2, hpS]⟩, ?_⟩
    · simp only [hp, hw, ne_eq, not_true_eq_false, not_false_eq_true, if_true, if_false,
        List.nil_append, List.length_singleton]
      rw [process_cmds_succ K onAppCmd 0 S T hT]
      rfl
    · have hWc : (emit Act.wait H).pipe.bytes = [K.APP_CMD_INIT_WINDOW] := by
        simp [hpipe, hp, hw]
      obtain ⟨P, hP, -, p2, p3⟩ :=
        process_cmd_window K onAppCmd (emit Act.wait H) _ _ hK hHb hWc hcb
      rw [if_neg h12, if_pos rfl] at p3
      simp only [emit_app] at p2 p3
      rw [hH, cond_wait_loop_of_true _ _ _ _ P
          (by simp [hwH, hpH, hwin, hp]; exact fun h => hw h.symm) hP,
        cond_wait_loop_of_false _ _ _ _ (by simp [p2, p3])]
      exact ⟨_, rfl, by simp [pthread_mutex_unlock, p3, hpH],
        by simp [pthread_mutex_unlock, p2, hpH]⟩
  · -- only APP_CMD_TERM_WINDOW
    subst hw
    have hSc : S.pipe.bytes = [K.APP_CMD_TERM_WINDOW] := by rw [hpipeS, hpipe]; simp [hp]
    obtain ⟨T, hT, -, q2, q3⟩ := process_cmd_window K onAppCmd S _ _ hK hSb hSc hcb
    rw [if_pos rfl] at q3
    refine ⟨by simp [hp], ⟨T, ?_, q3, by rw [q2, hpS]⟩, ?_⟩
    · simp only [hp, ne_eq, not_true_eq_false, not_false_eq_true, if_true, if_false,
        List.append_nil, List.length_singleton]
      rw [process_cmds_succ K onAppCmd 0 S T hT]
      rfl
    · have hWc : (emit Act.wait H).pipe.bytes = [K.APP_CMD_TERM_WINDOW] := by
        simp [hpipe, hp]
      obtain ⟨P, hP, -, p2, p3⟩ :=
        process_cmd_window K onAppCmd (emit Act.wait H) _ _ hK hHb hWc hcb
      rw [if_pos rfl] at p3
      simp only [emit_app] at p2 p3
      rw [hH, cond_wait_loop_of_true _ _ _ _ P (by simp [hwH, hpH, hwin, hp]) hP,
        cond_wait_loop_of_false _ _ _ _ (by simp [p2, p3, hpH])]
      exact ⟨_, rfl, by simp [pthread_mutex_unlock, p3],
        by simp [pthread_mutex_unlock, p2, hpH]⟩
  · -- APP_CMD_TERM_WINDOW then APP_CMD_INIT_WINDOW
    have hSc : S.pipe.bytes = [K.APP_CMD_TERM_WINDOW, K.APP_CMD_INIT_WINDOW] := by
      rw [hpipeS, hpipe]; simp [hp, hw]
    obtain ⟨T, hT, q1, q2, -⟩ := process_cmd_window K onAppCmd S _ _ hK hSb hSc hcb
    have hTb : T.pipe.broken = false := by rw [q1]; exact hSb
    have hTc : T.pipe.bytes = [K.APP_CMD_INIT_WINDOW] := by rw [q1]
    obtain ⟨U, hU, -, r2, r3⟩ := process_cmd_window K onAppCmd T _ _ hK hTb hTc hcb
    rw [if_neg h12, if_pos rfl] at r3
    refine ⟨by simp [hp, hw], ⟨U, ?_, by rw [r3, q2, hpS], by rw [r2, q2, hpS]⟩, ?_⟩
    · simp only [hp, hw, ne_eq, not_false_eq_true, if_true, List.singleton_append,
        List.length_cons, List.length_singleton, List.length_nil]
      rw [process_cmds_succ K onAppCmd _ S T hT, process_cmds_succ K onAppCmd 0 T U hU]
      rfl
    · rw [hH]
      by_cases hsame : s.app.pendingWindow = w
      · -- the same window again: the loop is not entered
        rw [cond_wait_loop_of_false _ _ _ _ (by simp [hwH, hpH, hwin, hsame])]
        exact ⟨_, rfl, by simp [pthread_mutex_unlock, hwH, hwin, hsame],
          by simp [pthread_mutex_unlock, hpH]⟩
      · have hWc : (emit Act.wait H).pipe.bytes
            = [K.APP_CMD_TERM_WINDOW, K.APP_CMD_INIT_WINDOW] := by simp [hpipe, hp, hw]
        obtain ⟨P, hP, p1, p2, p3⟩ :=
          process_cmd_window K onAppCmd (emit Act.wait H) _ _ hK hHb hWc hcb
        rw [if_pos rfl] at p3
        simp only [emit_app, emit_pipe] at p1 p2 p3
        have hXb : (emit Act.wait P).pipe.broken = false := by simp [p1, hHb]
        have hXc : (emit Act.wait P).pipe.bytes = [K.APP_CMD_INIT_WINDOW] := by simp [p1]
        obtain ⟨Q, hQ, -, t2, t3⟩ := process_cmd_window K onAppCmd _ _ _ hK hXb hXc hcb
        rw [if_neg h12, if_pos rfl] at t3
        simp only [emit_app] at t2 t3
        rw [cond_wait_loop_of_true _ _ _ _ P (by simp [hwH, hpH, hwin, hsame]) hP,
          cond_wait_loop_of_true _ _ _ _ Q
            (by simp [p2, p3, hpH]; exact fun h => hw h.symm) hQ,
          cond_wait_loop_of_false _ _ _ _ (by simp [t2, t3])]
        exact ⟨_, rfl, by simp [pthread_mutex_unlock, t3, p2, hpH],
          by simp [pthread_mutex_unlock, t2, p2, hpH]⟩

/-! ### Saving the instance state -/

theorem read_cmd_log (K : AppCmd) (s : Sys ME KE) :
    ∃ l, (android_app_read_cmd K s).state.trace = s.trace ++ l ∧ pipeWrites l = [] ∧
      recallbacks l = [] := by
  unfold android_app_read_cmd
  rcases hr : s.pipe.read with ⟨c, p⟩ | _ | _
  · dsimp only [ReadCmd.state]
    by_cases hc : c = K.APP_CMD_SAVE_STATE
    · obtain ⟨l, hl, -, h2, h3⟩ := free_saved_state_log (emit (Act.pipeRead c) { s with pipe := p })
      refine ⟨Act.pipeRead c :: l, ?_, by simpa [pipeWrites] using h2,
        by simpa [recallbacks] using h3⟩
      rw [if_pos hc, hl]
      simp
    · exact ⟨[Act.pipeRead c], by simp [hc], rfl, rfl⟩
  · exact ⟨[Act.loge], rfl, rfl, rfl⟩
  · exact ⟨[], by simp [ReadCmd.state], rfl, rfl⟩

theorem process_cmd_log (K : AppCmd) (onAppCmd : OnAppCmd ME KE) (s : Sys ME KE) :
    ∃ l, (process_cmd K onAppCmd s).state.trace = s.trace ++ l ∧ pipeWrites l = [] ∧
      recallbacks l = [] := by
  obtain ⟨l1, ht1, w1, r1⟩ := read_cmd_log K s
  rcases h : android_app_read_cmd K s with ⟨c, r⟩ | r
  · rw [h] at ht1
    simp only [ReadCmd.state] at ht1
    obtain ⟨l2, ht2, -, w2, r2⟩ := pre_exec_log K r c
    obtain ⟨l3, ht3, -, w3, r3⟩ := post_exec_log K
      (call_onAppCmd onAppCmd (android_app_pre_exec_cmd K r c) c) c
    refine ⟨l1 ++ (Act.pre_exec c :: l2) ++
      (if onAppCmd.isSome then [Act.onAppCmd c] else []) ++ (Act.post_exec c :: l3), ?_, ?_, ?_⟩
    · rw [process_cmd_of_returned K onAppCmd s r c h, Outcome.state, ht3, call_onAppCmd_trace,
        ht2, ht1]
      simp only [List.append_assoc]
    · cases onAppCmd <;> simp [pipeWrites_append, pipeWrites, w1, w2, w3]
    · cases onAppCmd <;> simp [recallbacks_append, recallbacks, r1, r2, r3]
  · rw [h] at ht1
    simp only [ReadCmd.state] at ht1
    exact ⟨l1, by rw [process_cmd_of_blocked K onAppCmd s r h, Outcome.state, ht1], w1, r1⟩

theorem process_cmd_pipeWrites (K : AppCmd) (onAppCmd : OnAppCmd ME KE) (s : Sys ME KE) :
    pipeWrites (process_cmd K onAppCmd s).state.trace = pipeWrites s.trace := by
  obtain ⟨l, hl, hw, -⟩ := process_cmd_log K onAppCmd s
  rw [hl, pipeWrites_append, hw, List.append_nil]

theorem process_cmd_save_state (K : AppCmd) (onAppCmd : OnAppCmd ME KE) (x : Sys ME KE)
    (rest : List Int) (hK : K.APP_CMD_SAVE_STATE ∉ K.preLabels)
    (hb : x.pipe.broken = false) (hc : x.pipe.bytes = K.APP_CMD_SAVE_STATE :: rest) :
    (android_app_read_cmd K x).state.app.savedState = NULL ∧
    ∃ P, process_cmd K onAppCmd x = Outcome.returned P ∧
      P.app =
        { (match onAppCmd with
            | some f => f (if x.app.savedState ≠ NULL then
                { x.app with savedState := NULL, savedStateSize := 0 } else x.app)
                K.APP_CMD_SAVE_STATE
            | none => (if x.app.savedState ≠ NULL then
                { x.app with savedState := NULL, savedStateSize := 0 } else x.app))
          with stateSaved := 1 } ∧
      P.pipe = { x.pipe with bytes := rest } := by
  obtain ⟨h1, h2, h3, -⟩ := read_cmd_of_bytes K x _ rest hb hc
  have hT : K.APP_CMD_SAVE_STATE ≠ K.APP_CMD_TERM_WINDOW := by
    intro h
    apply hK
    simp [AppCmd.preLabels, h]
  have hp := process_cmd_of_returned K onAppCmd x _ _ h1
  have hpost : ∀ y : Sys ME KE, (android_app_post_exec_cmd K y K.APP_CMD_SAVE_STATE).app
      = { y.app with stateSaved := 1 } := by
    intro y
    simp [android_app_post_exec_cmd, hT, pthread_mutex_lock, pthread_mutex_unlock,
      pthread_cond_broadcast]
  simp only [true_and] at h3
  refine ⟨?_, _, hp, ?_, ?_⟩
  · rw [h3]
    by_cases hs : x.app.savedState = NULL <;> simp [hs]
  · rw [hpost, call_onAppCmd_app, pre_exec_app_of_not_mem K _ _ hK, h3]
  · rw [post_exec_pipe, call_onAppCmd_pipe, pre_exec_pipe, h2]

/-- C7 (amended): run `onSaveInstanceState` on a working empty pipe while the app thread
handles the `APP_CMD_SAVE_STATE` it writes. `onAppCmd` receives the struct `a0`, in which
`savedState` is NULL (and `savedStateSize` is 0 if the old pointer was non-NULL); call `a1` the
struct it leaves. Then `onSaveInstanceState` returns after one wait; `recallback` is called
exactly once, with `a1.savedState` and `a1.savedStateSize`, if `a1.savedState` is non-NULL and
not at all otherwise; on return `savedState == NULL` and `stateSaved == 1`; and
`savedStateSize == 0` if `a1.savedState` is non-NULL or `a1.savedStateSize` is already 0
(the size is reset only together with a non-NULL pointer). -/
theorem C7_save_instance_state (K : AppCmd) (onAppCmd : OnAppCmd ME KE) (s : Sys ME KE)
    (fuel : Nat) (a0 a1 : android_app ME KE)
    (hK : K.APP_CMD_SAVE_STATE ∉ K.preLabels)
    (hb : s.pipe.broken = false) (he : s.pipe.bytes = [])
    (ha0 : a0 = if s.app.savedState ≠ NULL then
        { s.app with stateSaved := 0, savedState := NULL, savedStateSize := 0 }
      else { s.app with stateSaved := 0 })
    (ha1 : a1 = match onAppCmd with
      | some f => f a0 K.APP_CMD_SAVE_STATE
      | none => a0) :
    a0.savedState = NULL ∧
    (s.app.savedState ≠ NULL → a0.savedStateSize = 0) ∧
    ∃ r, onSaveInstanceState K (process_cmd K onAppCmd) (fuel + 1) s = Outcome.returned r ∧
      recallbacks (newTrace s r) =
        (if a1.savedState ≠ NULL then [(a1.savedState, a1.savedStateSize)] else []) ∧
      r.app = (if a1.savedState ≠ NULL then
          { a1 with stateSaved := 1, savedState := NULL, savedStateSize := 0 }
        else { a1 with stateSaved := 1 }) ∧
      r.app.savedState = NULL ∧ r.app.stateSaved = 1 ∧
      (a1.savedState ≠ NULL ∨ a1.savedStateSize = 0 → r.app.savedStateSize = 0) ∧
      r.pipe.bytes = [] := by
  -- the state in which the main thread starts to wait
  obtain ⟨H, hH⟩ : ∃ H : Sys ME KE, H =
      android_app_write_cmd
        (store Field.stateSaved (fun a => { a with stateSaved := 0 }) (pthread_mutex_lock s))
        K.APP_CMD_SAVE_STATE := ⟨_, rfl⟩
  have hHe : H = { app := { s.app with stateSaved := 0 },
                   pipe := { s.pipe with bytes := [K.APP_CMD_SAVE_STATE] },
                   trace := s.trace ++ [Act.lock, Act.store Field.stateSaved,
                     Act.pipeWrite K.APP_CMD_SAVE_STATE] } := by
    rw [hH, write_cmd_ok _ _ (by simpa [pthread_mutex_lock] using hb)]
    simp [store, pthread_mutex_lock, emit, he]
  -- the app thread handles the command during the first wait
  obtain ⟨X, hX⟩ : ∃ X : Sys ME KE, X = emit Act.wait H := ⟨_, rfl⟩
  have hXb : X.pipe.broken = false := by rw [hX, hHe]; exact hb
  have hXc : X.pipe.bytes = K.APP_CMD_SAVE_STATE :: [] := by rw [hX, hHe]; rfl
  obtain ⟨-, P, hP, hPapp, hPpipe⟩ := process_cmd_save_state K onAppCmd X [] hK hXb hXc
  obtain ⟨l, hl, -, hlr⟩ := process_cmd_log K onAppCmd X
  rw [hP, Outcome.state] at hl
  have hXapp : (if X.app.savedState ≠ NULL then
      { X.app with savedState := NULL, savedStateSize := 0 } else X.app) = a0 := by
    rw [ha0, hX, hHe]
    by_cases hs : s.app.savedState = NULL <;> simp [hs]
  rw [hXapp, ← ha1] at hPapp
  have hfun : onSaveInstanceState K (process_cmd K onAppCmd) (fuel + 1) s =
      (cond_wait_loop (fun a => a.stateSaved == 0) (process_cmd K onAppCmd) (fuel + 1)
        H).andThen fun s =>
          pthread_mutex_unlock
            (if s.app.savedState ≠ NULL then
              store Field.savedStateSize (fun a => { a with savedStateSize := 0 })
                (store Field.savedState (fun a => { a with savedState := NULL })
                  (emit (Act.free s.app.savedState)
                    (emit (Act.recallback s.app.savedState s.app.savedStateSize) s)))
            else s) := by
    rw [hH]
    rfl
  have hloop : cond_wait_loop (fun a => a.stateSaved == 0) (process_cmd K onAppCmd) (fuel + 1) H
      = Outcome.returned P := by
    rw [cond_wait_loop_of_true _ _ _ _ P (by rw [hHe]; rfl) (by rw [← hX]; exact hP),
      cond_wait_loop_of_false _ _ _ _ (by rw [hPapp]; rfl)]
  have htr : P.trace = s.trace ++
      ([Act.lock, Act.store Field.stateSaved, Act.pipeWrite K.APP_CMD_SAVE_STATE, Act.wait]
        ++ l) := by
    rw [hl, hX, hHe]
    simp
  obtain ⟨R, hR⟩ : ∃ R : Sys ME KE, R =
      pthread_mutex_unlock
        (if P.app.savedState ≠ NULL then
          store Field.savedStateSize (fun a => { a with savedStateSize := 0 })
            (store Field.savedState (fun a => { a with savedState := NULL })
              (emit (Act.free P.app.savedState)
                (emit (Act.recallback P.app.savedState
                  P.app.savedStateSize) P)))
        else P) := ⟨_, rfl⟩
  have hret : onSaveInstanceState K (process_cmd K onAppCmd) (fuel + 1) s
      = Outcome.returned R := by
    rw [hfun, hloop, hR]
    rfl
  have hs1 : P.app.savedState = a1.savedState := by rw [hPapp]
  have hz1 : P.app.savedStateSize = a1.savedStateSize := by
    rw [hPapp]
  rw [hs1, hz1] at hR
  have happ : R.app = (if a1.savedState ≠ NULL then
        { a1 with stateSaved := 1, savedState := NULL, savedStateSize := 0 }
      else { a1 with stateSaved := 1 }) := by
    rw [hR]
    by_cases h1 : a1.savedState = NULL <;> simp [h1, pthread_mutex_unlock, hPapp]
  refine ⟨?_, ?_, R, hret, ?_, happ, ?_, ?_, ?_, ?_⟩
  · rw [ha0]; split_ifs <;> simp_all
  · intro hs; rw [ha0, if_pos hs]
  · by_cases h1 : a1.savedState = NULL
    · rw [newTrace_of_append s R _ (by
        rw [hR]
        simp only [h1, ne_eq, not_true_eq_false, if_false, pthread_mutex_unlock, emit_trace,
          htr, List.append_assoc]
        rfl)]
      simp [h1, recallbacks_append, recallbacks, hlr]
    · rw [newTrace_of_append s R _ (by
        rw [hR]
        simp only [ne_eq, h1, not_false_eq_true, if_true, pthread_mutex_unlock,
          emit_trace, store_trace, htr, List.append_assoc]
        rfl)]
      simp [h1, recallbacks_append, recallbacks, hlr]
  · rw [happ]; split_ifs <;> simp_all
  · rw [happ]; split_ifs <;> rfl
  · intro hor
    rw [happ]
    by_cases h1 : a1.savedState = NULL
    · have h0 : a1.savedStateSize = 0 := hor.resolve_left (fun h => h h1)
      simp [h1, h0]
    · simp [h1]
  · rw [hR]
    by_cases h1 : a1.savedState = NULL <;> simp [h1, pthread_mutex_unlock, hPpipe]


/-! ### What each installed callback writes to the pipe -/

theorem cond_wait_loop_pipeWrites (cond : android_app ME KE → Bool)
    (other : Sys ME KE → Outcome ME KE)
    (ho : ∀ x, pipeWrites (other x).state.trace = pipeWrites x.trace) (fuel : Nat) (H : Sys ME KE) :
    pipeWrites (cond_wait_loop cond other fuel H).state.trace = pipeWrites H.trace := by
  induction fuel generalizing H with
  | zero =>
    cases hc : cond H.app <;> simp [cond_wait_loop, hc, Outcome.state]
  | succ n ih =>
    cases hc : cond H.app
    · simp [cond_wait_loop, hc, Outcome.state]
    · have hw : pipeWrites (other (emit Act.wait H)).state.trace = pipeWrites H.trace := by
        rw [ho, emit_trace, pipeWrites_append]
        simp [pipeWrites]
      simp only [cond_wait_loop, hc, if_true]
      cases ho2 : other (emit Act.wait H) with
      | returned t =>
        rw [ho2] at hw
        simp only [ih]
        exact hw
      | blocked t =>
        rw [ho2] at hw
        exact hw

theorem andThen_pipeWrites (o : Outcome ME KE) (k : Sys ME KE → Sys ME KE)
    (hk : ∀ x, pipeWrites (k x).trace = pipeWrites x.trace) :
    pipeWrites (o.andThen k).state.trace = pipeWrites o.state.trace := by
  cases o with
  | returned s => exact hk s
  | blocked s => rfl

theorem unlock_pipeWrites (x : Sys ME KE) :
    pipeWrites (pthread_mutex_unlock x).trace = pipeWrites x.trace := by
  simp [pthread_mutex_unlock, pipeWrites_append, pipeWrites]

theorem set_activity_state_pipeWrites (other : Sys ME KE → Outcome ME KE)
    (ho : ∀ x, pipeWrites (other x).state.trace = pipeWrites x.trace) (fuel : Nat) (s : Sys ME KE)
    (c : Int) (hb : s.pipe.broken = false) :
    pipeWrites (android_app_set_activity_state other fuel s c).state.trace
      = pipeWrites s.trace ++ [c] := by
  unfold android_app_set_activity_state
  dsimp only
  rw [andThen_pipeWrites _ _ unlock_pipeWrites, cond_wait_loop_pipeWrites _ _ ho,
    write_cmd_ok _ _ (by simpa [pthread_mutex_lock] using hb)]
  simp [pthread_mutex_lock, pipeWrites_append, pipeWrites]

/-- C2 (amended): on a working pipe, with an app thread that writes nothing to the pipe, the
bytes accepted by `write` during an invocation of an installed callback are: its one command
byte for `onDestroy`, `onStart`, `onResume`, `onSaveInstanceState`, `onPause`, `onStop`,
`onConfigurationChanged`, `onTrimMemory` and `onWindowFocusChanged`; for the two window
callbacks the bytes `android_app_set_window` selects (`APP_CMD_TERM_WINDOW` if a window was
pending, then `APP_CMD_INIT_WINDOW` if the new window is non-NULL, possibly none); and none at
all for `onTouchEvent`, `onKeyDown`, `onKeyUp` and `onTextInputEvent`. These four instead
store into the struct, and every store they make happens while the mutex is held: the event
goes into the next free slot of its buffer and the count goes up by one (nothing changes when
the buffer is full), and `onTextInputEvent` sets `textInputState` to 1 between the lock and
the unlock. -/
theorem C2_callback_pipe_writes (K : AppCmd) (other : Sys ME KE → Outcome ME KE) (fuel : Nat)
    (slot : GameActivityCallback ME KE) (s : Sys ME KE) (hb : s.pipe.broken = false)
    (ho : ∀ x, pipeWrites (other x).state.trace = pipeWrites x.trace) :
    pipeWrites (GameActivity_onCreate_C K other fuel slot s).state.trace =
      pipeWrites s.trace ++
        (match slot with
          | GameActivityCallback.onDestroy => [K.APP_CMD_DESTROY]
          | GameActivityCallback.onStart => [K.APP_CMD_START]
          | GameActivityCallback.onResume => [K.APP_CMD_RESUME]
          | GameActivityCallback.onSaveInstanceState => [K.APP_CMD_SAVE_STATE]
          | GameActivityCallback.onPause => [K.APP_CMD_PAUSE]
          | GameActivityCallback.onStop => [K.APP_CMD_STOP]
          | GameActivityCallback.onTouchEvent _ => []
          | GameActivityCallback.onKeyDown _ => []
          | GameActivityCallback.onKeyUp _ => []
          | GameActivityCallback.onTextInputEvent => []
          | GameActivityCallback.onConfigurationChanged => [K.APP_CMD_CONFIG_CHANGED]
          | GameActivityCallback.onTrimMemory _ => [K.APP_CMD_LOW_MEMORY]
          | GameActivityCallback.onWindowFocusChanged focused =>
            [if focused then K.APP_CMD_GAINED_FOCUS else K.APP_CMD_LOST_FOCUS]
          | GameActivityCallback.onNativeWindowCreated window =>
            (if s.app.pendingWindow ≠ NULL then [K.APP_CMD_TERM_WINDOW] else []) ++
              (if window ≠ NULL then [K.APP_CMD_INIT_WINDOW] else [])
          | GameActivityCallback.onNativeWindowDestroyed _ =>
            (if s.app.pendingWindow ≠ NULL then [K.APP_CMD_TERM_WINDOW] else [])) ∧
    (match slot with
      | GameActivityCallback.onTouchEvent event =>
        unguarded false
          (newTrace s (GameActivity_onCreate_C K other fuel slot s).state) = [] ∧
        (GameActivity_onCreate_C K other fuel slot s).state.app =
          (if s.app.motionEventsCount < K.NATIVE_APP_GLUE_MAX_NUM_MOTION_EVENTS then
            { s.app with
              motionEvents := Function.update s.app.motionEvents s.app.motionEventsCount event
              motionEventsCount := s.app.motionEventsCount + 1 }
          else s.app)
      | GameActivityCallback.onKeyDown event =>
        unguarded false
          (newTrace s (GameActivity_onCreate_C K other fuel slot s).state) = [] ∧
        (GameActivity_onCreate_C K other fuel slot s).state.app =
          (if s.app.keyDownEventsCount < K.NATIVE_APP_GLUE_MAX_NUM_KEY_EVENTS then
            { s.app with
              keyDownEvents := Function.update s.app.keyDownEvents s.app.keyDownEventsCount event
              keyDownEventsCount := s.app.keyDownEventsCount + 1 }
          else s.app)
      | GameActivityCallback.onKeyUp event =>
        unguarded false
          (newTrace s (GameActivity_onCreate_C K other fuel slot s).state) = [] ∧
        (GameActivity_onCreate_C K other fuel slot s).state.app =
          (if s.app.keyUpEventsCount < K.NATIVE_APP_GLUE_MAX_NUM_KEY_EVENTS then
            { s.app with
              keyUpEvents := Function.update s.app.keyUpEvents s.app.keyUpEventsCount event
              keyUpEventsCount := s.app.keyUpEventsCount + 1 }
          else s.app)
      | GameActivityCallback.onTextInputEvent =>
        unguarded false
          (newTrace s (GameActivity_onCreate_C K other fuel slot s).state) = [] ∧
        newTrace s (GameActivity_onCreate_C K other fuel slot s).state
          = [Act.lock, Act.store Field.textInputState, Act.unlock] ∧
        (GameActivity_onCreate_C K other fuel slot s).state.app =
          { s.app with textInputState := 1 }
      | _ => True) := by
  refine ⟨?_, ?_⟩
  swap
  · cases slot with
    | onTouchEvent e =>
      refine ⟨?_, onTouchEvent_app K s e⟩
      show unguarded false (newTrace s (onTouchEvent K s e)) = []
      rw [newTrace_of_append s _ _ (onTouchEvent_trace K s e)]
      split_ifs <;> simp [unguarded, Act.isSharedAccess]
    | onKeyDown e =>
      refine ⟨?_, onKeyDown_app K s e⟩
      show unguarded false (newTrace s (onKeyDown K s e)) = []
      rw [newTrace_of_append s _ _ (onKeyDown_trace K s e)]
      split_ifs <;> simp [unguarded, Act.isSharedAccess]
    | onKeyUp e =>
      refine ⟨?_, onKeyUp_app K s e⟩
      show unguarded false (newTrace s (onKeyUp K s e)) = []
      rw [newTrace_of_append s _ _ (onKeyUp_trace K s e)]
      split_ifs <;> simp [unguarded, Act.isSharedAccess]
    | onTextInputEvent =>
      have ht : newTrace s (onTextInputEvent s)
          = [Act.lock, Act.store Field.textInputState, Act.unlock] :=
        newTrace_of_append s _ _ (by
          simp [onTextInputEvent, pthread_mutex_lock, pthread_mutex_unlock])
      refine ⟨?_, ht, ?_⟩
      · show unguarded false (newTrace s (onTextInputEvent s)) = []
        rw [ht]
        simp [unguarded, Act.isSharedAccess]
      · simp [GameActivity_onCreate_C, Outcome.state, onTextInputEvent, pthread_mutex_lock,
          pthread_mutex_unlock]
    | _ => trivial
  cases slot with
  | onDestroy =>
    simp only [GameActivity_onCreate_C, onDestroy, android_app_free]
    rw [andThen_pipeWrites _ _ (fun x => by simp [pthread_mutex_unlock, pipeWrites_append,
        pipeWrites]), cond_wait_loop_pipeWrites _ _ ho,
      write_cmd_ok _ _ (by simpa [pthread_mutex_lock] using hb)]
    simp [pthread_mutex_lock, pipeWrites_append, pipeWrites]
  | onStart => exact set_activity_state_pipeWrites other ho fuel s _ hb
  | onResume => exact set_activity_state_pipeWrites other ho fuel s _ hb
  | onSaveInstanceState =>
    simp only [GameActivity_onCreate_C, onSaveInstanceState]
    rw [andThen_pipeWrites _ _ (fun x => by
        by_cases hx : x.app.savedState = NULL <;>
          simp [hx, pthread_mutex_unlock, pipeWrites_append, pipeWrites]),
      cond_wait_loop_pipeWrites _ _ ho,
      write_cmd_ok _ _ (by simpa [pthread_mutex_lock] using hb)]
    simp [pthread_mutex_lock, pipeWrites_append, pipeWrites]
  | onPause => exact set_activity_state_pipeWrites other ho fuel s _ hb
  | onStop => exact set_activity_state_pipeWrites other ho fuel s _ hb
  | onTouchEvent e =>
    simp only [GameActivity_onCreate_C, Outcome.state, onTouchEvent_trace, pipeWrites_append]
    split_ifs <;> simp [pipeWrites]
  | onKeyDown e =>
    simp only [GameActivity_onCreate_C, Outcome.state, onKeyDown_trace, pipeWrites_append]
    split_ifs <;> simp [pipeWrites]
  | onKeyUp e =>
    simp only [GameActivity_onCreate_C, Outcome.state, onKeyUp_trace, pipeWrites_append]
    split_ifs <;> simp [pipeWrites]
  | onTextInputEvent =>
    simp [GameActivity_onCreate_C, Outcome.state, onTextInputEvent, pthread_mutex_lock,
      pthread_mutex_unlock, pipeWrites_append, pipeWrites]
  | onConfigurationChanged =>
    simp [GameActivity_onCreate_C, Outcome.state, onConfigurationChanged, write_cmd_ok _ _ hb,
      pipeWrites_append, pipeWrites]
  | onTrimMemory level =>
    simp [GameActivity_onCreate_C, Outcome.state, onTrimMemory, write_cmd_ok _ _ hb,
      pipeWrites_append, pipeWrites]
  | onWindowFocusChanged focused =>
    simp [GameActivity_onCreate_C, Outcome.state, onWindowFocusChanged, write_cmd_ok _ _ hb,
      pipeWrites_append, pipeWrites]
  | onNativeWindowCreated window =>
    obtain ⟨H, hH, -, -, hrest⟩ := set_window_head K s window
    simp only [GameActivity_onCreate_C, onNativeWindowCreated]
    rw [hH, andThen_pipeWrites _ _ unlock_pipeWrites, cond_wait_loop_pipeWrites _ _ ho,
      (hrest hb).2]
  | onNativeWindowDestroyed window =>
    obtain ⟨H, hH, -, -, hrest⟩ := set_window_head K s NULL
    simp only [GameActivity_onCreate_C, onNativeWindowDestroyed]
    rw [hH, andThen_pipeWrites _ _ unlock_pipeWrites, cond_wait_loop_pipeWrites _ _ ho,
      (hrest hb).2]
    simp


/-! ### Concrete instances -/

/-- C2 fails as stated: invoked on the zero-filled state, the installed `onTouchEvent` writes
no byte to the pipe (it stores the event in the struct), and so does the installed
`onNativeWindowDestroyed` when no window is pending. -/
theorem C2_counterexample_onTouchEvent :
    pipeWrites (newTrace (Sys.zero 0 0 : Sys Nat Nat)
      (GameActivity_onCreate_C ndk (process_cmd ndk none) 1 (GameActivityCallback.onTouchEvent 7)
        (Sys.zero 0 0)).state) = [] ∧
    (GameActivity_onCreate_C ndk (process_cmd ndk none) 1 (GameActivityCallback.onTouchEvent 7)
        (Sys.zero 0 0 : Sys Nat Nat)).state.pipe.bytes = [] ∧
    (GameActivity_onCreate_C ndk (process_cmd ndk none) 1 (GameActivityCallback.onTouchEvent 7)
        (Sys.zero 0 0 : Sys Nat Nat)).state.app.motionEventsCount = 1 ∧
    pipeWrites (newTrace (Sys.zero 0 0 : Sys Nat Nat)
      (GameActivity_onCreate_C ndk (process_cmd ndk none) 1
        (GameActivityCallback.onNativeWindowDestroyed 5) (Sys.zero 0 0)).state) = [] := by
  refine ⟨?_, ?_, ?_, ?_⟩ <;> rfl

/-- The hypotheses of `C2_callback_pipe_writes` hold on the zero-filled state with the app
thread running `process_cmd`; there `onStart` writes the single byte 10. -/
theorem C2_callback_pipe_writes_witness :
    (Sys.zero 0 0 : Sys Nat Nat).pipe.broken = false ∧
    pipeWrites (GameActivity_onCreate_C ndk (process_cmd ndk none) 3 GameActivityCallback.onStart
      (Sys.zero 0 0 : Sys Nat Nat)).state.trace = [10] :=
  ⟨rfl,
    (C2_callback_pipe_writes ndk (process_cmd ndk none) 3 GameActivityCallback.onStart
      (Sys.zero 0 0 : Sys Nat Nat) rfl (fun x => process_cmd_pipeWrites ndk none x)).1⟩

/-- The hypotheses of `C3_process_cmd_order` hold for a pipe holding the bytes 10 and 13. -/
theorem C3_process_cmd_order_witness :
    steps (newTrace
        ({ app := android_app.zero 0 0, pipe := { bytes := [10, 13], broken := false },
           trace := [] } : Sys Nat Nat)
        (process_cmd ndk (some fun a _ => a)
          { app := android_app.zero 0 0, pipe := { bytes := [10, 13], broken := false },
            trace := [] }).state)
      = [Act.pipeRead 10, Act.pre_exec 10, Act.onAppCmd 10, Act.post_exec 10] ∧
    (process_cmd ndk (some fun a _ => a)
        ({ app := android_app.zero 0 0, pipe := { bytes := [10, 13], broken := false },
           trace := [] } : Sys Nat Nat)).state.pipe.bytes = [13] := by
  have h := C3_process_cmd_order ndk (some fun a _ => a)
    ({ app := android_app.zero 0 0, pipe := { bytes := [10, 13], broken := false },
       trace := [] } : Sys Nat Nat) 10 [13] rfl rfl
  exact ⟨h.2.2.1, h.2.1⟩

/-- C4 fails as stated: in the pre hook, the store `destroyRequested = 1` for
`APP_CMD_DESTROY` and the broadcast for `APP_CMD_TERM_WINDOW` happen without the mutex. -/
theorem C4_counterexample_destroyRequested :
    unguarded false (newTrace (Sys.zero 0 0 : Sys Nat Nat)
      (android_app_pre_exec_cmd ndk (Sys.zero 0 0) ndk.APP_CMD_DESTROY))
        = [Act.store Field.destroyRequested] ∧
    unguarded false (newTrace (Sys.zero 0 0 : Sys Nat Nat)
      (android_app_pre_exec_cmd ndk (Sys.zero 0 0) ndk.APP_CMD_TERM_WINDOW))
        = [Act.broadcast] := by
  constructor <;> rfl

/-- The hypothesis of `C4_mutex_guard` holds for the NDK values; for `APP_CMD_RESUME` the
pre hook performs nothing outside the mutex. -/
theorem C4_mutex_guard_witness :
    ndk.preLabels.Nodup ∧
    unguarded false (newTrace (Sys.zero 0 0 : Sys Nat Nat)
      (android_app_pre_exec_cmd ndk (Sys.zero 0 0) ndk.APP_CMD_RESUME)) = [] :=
  ⟨by decide,
    (C4_mutex_guard ndk (Sys.zero 0 0 : Sys Nat Nat) ndk.APP_CMD_RESUME (by decide)).2.1⟩

/-- The hypothesis of `C5_pre_exec_activityState` holds for the NDK values; for
`APP_CMD_PAUSE` the pre hook changes `activityState` to 13 and nothing else. -/
theorem C5_pre_exec_activityState_witness :
    ndk.preLabels.Nodup ∧
    (android_app_pre_exec_cmd ndk (Sys.zero 0 0 : Sys Nat Nat) ndk.APP_CMD_PAUSE).app
      = { android_app.zero 0 0 with activityState := 13 } :=
  ⟨by decide,
    (C5_pre_exec_activityState ndk (Sys.zero 0 0 : Sys Nat Nat) ndk.APP_CMD_PAUSE
      (by decide)).1 (by decide)⟩

/-- The hypotheses of `C6_window_handoff_completes` hold on the zero-filled state with an
`onAppCmd` that only sets `running`; handing over window 5 writes `APP_CMD_INIT_WINDOW` and
returns with both fields 5. -/
theorem C6_window_handoff_completes_witness :
    ndk.preLabels.Nodup ∧
    (android_app_set_window ndk Outcome.returned 0 (Sys.zero 0 0 : Sys Nat Nat) 5).state.pipe.bytes
      = [1] ∧
    ∃ r, android_app_set_window ndk (process_cmd ndk (some fun a _ => { a with running := 1 }))
          2 (Sys.zero 0 0 : Sys Nat Nat) 5
        = Outcome.returned r ∧ r.app.window = 5 ∧ r.app.pendingWindow = 5 :=
  have h := C6_window_handoff_completes ndk (some fun a _ => { a with running := 1 })
    (Sys.zero 0 0 : Sys Nat Nat) 5 Outcome.returned 0
    (by decide) rfl rfl rfl (fun _ hf _ _ => by cases hf; exact ⟨rfl, rfl⟩)
  ⟨by decide, h.1, h.2.2⟩

/-- C7 fails as stated: from the zero-filled state, with an `onAppCmd` that stores a size of 5
and no buffer, `onSaveInstanceState` returns with `savedStateSize == 5`, not 0. -/
theorem C7_counterexample_size_kept :
    ∃ r, onSaveInstanceState ndk
        (process_cmd ndk (some fun a _ => { a with savedStateSize := 5 })) 1
        (Sys.zero 0 0 : Sys Nat Nat) = Outcome.returned r ∧
      r.app.savedState = NULL ∧ r.app.stateSaved = 1 ∧ r.app.savedStateSize = 5 ∧
      recallbacks r.trace = [] :=
  ⟨_, rfl, rfl, rfl, rfl, rfl⟩

/-- The hypotheses of `C7_save_instance_state` hold for the NDK values on a state that still
holds a saved buffer (address 40, size 9), with an `onAppCmd` that stores buffer 77 of size 3:
`recallback` is called once with (77, 3) and the fields are reset on return. -/
theorem C7_save_instance_state_witness :
    ndk.APP_CMD_SAVE_STATE ∉ ndk.preLabels ∧
    ∃ r, onSaveInstanceState ndk
        (process_cmd ndk (some fun a _ => { a with savedState := 77, savedStateSize := 3 })) 1
        ({ app := { android_app.zero 0 0 with savedState := 40, savedStateSize := 9 },
           pipe := { bytes := [], broken := false }, trace := [] } : Sys Nat Nat)
          = Outcome.returned r ∧
      recallbacks r.trace = [(77, 3)] ∧
      r.app.savedState = NULL ∧ r.app.stateSaved = 1 ∧ r.app.savedStateSize = 0 := by
  refine ⟨by decide, ?_⟩
  obtain ⟨-, -, r, h1, h2, -, h4, h5, h6, -⟩ := C7_save_instance_state ndk
    (some fun a _ => { a with savedState := 77, savedStateSize := 3 })
    ({ app := { android_app.zero 0 0 with savedState := 40, savedStateSize := 9 },
       pipe := { bytes := [], broken := false }, trace := [] } : Sys Nat Nat) 0 _ _
    (by decide) rfl rfl rfl rfl
  exact ⟨r, h1, h2, h4, h5, h6 (Or.inl (by decide))⟩

/-- The hypotheses of `C10_failed_read_harmless` hold for the NDK values on a state whose pipe
no longer transfers data (a byte is still pending in it) and whose struct holds a window, an
activity state and a saved buffer: the read fails, `-1` is returned, and `process_cmd` leaves
the struct as `onAppCmd` returned it. -/
theorem C10_failed_read_harmless_witness :
    ({ app := { android_app.zero 0 0 with
                activityState := 11, window := 5, pendingWindow := 5,
                savedState := 40, savedStateSize := 9 },
       pipe := { bytes := [12], broken := true }, trace := [] } : Sys Nat Nat).pipe.read
      = ReadResult.failed ∧
    (-1 : Int) ∉ ndk.preLabels ∧ (-1 : Int) ∉ ndk.postLabels ∧
    android_app_read_cmd ndk
        ({ app := { android_app.zero 0 0 with
                    activityState := 11, window := 5, pendingWindow := 5,
                    savedState := 40, savedStateSize := 9 },
           pipe := { bytes := [12], broken := true }, trace := [] } : Sys Nat Nat)
      = ReadCmd.returned (-1)
          { app := { android_app.zero 0 0 with
                     activityState := 11, window := 5, pendingWindow := 5,
                     savedState := 40, savedStateSize := 9 },
            pipe := { bytes := [12], broken := true }, trace := [Act.loge] } ∧
    (process_cmd ndk (some fun a _ => { a with running := 1 })
        ({ app := { android_app.zero 0 0 with
                    activityState := 11, window := 5, pendingWindow := 5,
                    savedState := 40, savedStateSize := 9 },
           pipe := { bytes := [12], broken := true }, trace := [] } : Sys Nat Nat)).state.app
      = { android_app.zero 0 0 with
          activityState := 11, window := 5, pendingWindow := 5,
          savedState := 40, savedStateSize := 9, running := 1 } :=
  have h := C10_failed_read_harmless ndk (some fun a _ => { a with running := 1 })
    ({ app := { android_app.zero 0 0 with
                activityState := 11, window := 5, pendingWindow := 5,
                savedState := 40, savedStateSize := 9 },
       pipe := { bytes := [12], broken := true }, trace := [] } : Sys Nat Nat)
    rfl (by decide) (by decide)
  ⟨rfl, by decide, by decide, h.1, h.2.2.2.2.2.2.1⟩

end Lemmas

end NativeAppGlue
